import Mathlib

set_option linter.unusedVariables false

/-! LC-3 disassembler: shallow embedding of `lc3-disassembler.c`.

Machine integers are natural numbers; a `uint16_t` result is reduced
`% 65536` wherever the C code truncates on assignment.  Text written to
standard output is modelled as the `String` that `printf` appends.
-/

namespace LC3

/-! ## `printf` conversions used by the program -/

/-- One digit of a `printf` integer conversion; `upper` selects `A`..`F`
(conversion `X`) over `a`..`f` (conversion `x`). -/
def digitChar (upper : Bool) (d : Nat) : Char :=
  if d < 10 then Char.ofNat (48 + d)
  else if upper then Char.ofNat (55 + d)
  else Char.ofNat (87 + d)

/-- Digits of `n` in base `base`, least significant first; `fuel` bounds
the number of digits produced. -/
def digitsRev (base : Nat) : Nat → Nat → List Nat
  | 0, _ => []
  | fuel + 1, n =>
      (n % base) :: (if n / base = 0 then [] else digitsRev base fuel (n / base))

/-- The digit string of a non-negative integer, most significant digit
first; zero is the single digit `0`. -/
def digitString (base : Nat) (upper : Bool) (n : Nat) : List Char :=
  ((digitsRev base (n + 1) n).reverse).map (digitChar upper)

/-- Zero padding on the left up to `width` characters. -/
def zeroPad (width : Nat) (cs : List Char) : List Char :=
  List.replicate (width - cs.length) '0' ++ cs

/-- Conversion `%d` applied to an `int`. -/
def printf_d (v : Int) : String :=
  if v < 0 then String.mk ('-' :: digitString 10 false v.natAbs)
  else String.mk (digitString 10 false v.toNat)

/-- Conversion `%04X`: upper-case hexadecimal, zero padded to width 4. -/
def printf_04X (n : Nat) : String :=
  String.mk (zeroPad 4 (digitString 16 true n))

/-- Conversion `%02X`: upper-case hexadecimal, zero padded to width 2. -/
def printf_02X (n : Nat) : String :=
  String.mk (zeroPad 2 (digitString 16 true n))

/-- Conversion `%#06x`: lower-case hexadecimal in the alternate form, zero
padded to width 6.  The alternate form puts `0x` in front of a nonzero
value only; the padding goes between that prefix and the digits. -/
def printf_alt06x (n : Nat) : String :=
  if n = 0 then String.mk (zeroPad 6 (digitString 16 false n))
  else String.mk ('0' :: 'x' :: zeroPad 4 (digitString 16 false n))

/-! ## The program -/

/-- The function `swap16`: exchange the two bytes of a 16-bit value. -/
def swap16 (x : Nat) : Nat :=
  ((x <<< 8) ||| (x >>> 8)) % 65536

def OP_BR : Nat := 0
def OP_ADD : Nat := 1
def OP_LD : Nat := 2
def OP_ST : Nat := 3
def OP_JSR : Nat := 4
def OP_AND : Nat := 5
def OP_LDR : Nat := 6
def OP_STR : Nat := 7
def OP_RTI : Nat := 8
def OP_NOT : Nat := 9
def OP_LDI : Nat := 10
def OP_STI : Nat := 11
def OP_JMP : Nat := 12
def OP_RES : Nat := 13
def OP_LEA : Nat := 14
def OP_TRAP : Nat := 15
def OP_NOP : Nat := 0xE8
def OP_CLR : Nat := 0xE9
def OP_INC : Nat := 0xEA
def OP_DEC : Nat := 0xEB

def TRAP_GETC : Nat := 0x20
def TRAP_OUT : Nat := 0x21
def TRAP_PUTS : Nat := 0x22
def TRAP_IN : Nat := 0x23
def TRAP_PUTSP : Nat := 0x24
def TRAP_HALT : Nat := 0x25
def TRAP_PUTHEX : Nat := 0x26
def TRAP_RND : Nat := 0x27
def TRAP_GETSTR : Nat := 0x28
def TRAP_SLEEP : Nat := 0x29

/-- The function `sign_extend`.  The constant `0xFFFF` is an `int`, so the
shift is done in `int` and the result of `|=` is truncated to 16 bits when
it is stored back into `x`.  The code calls it with `bit_count` 5, 6, 9
and 11 only. -/
def sign_extend (x : Nat) (bit_count : Nat) : Nat :=
  if (x >>> (bit_count - 1)) &&& 1 ≠ 0 then
    (x ||| (0xFFFF <<< bit_count)) % 65536
  else x

/-- The function `disassemble_instruction`: the text it writes to standard
output for the word `instr` found at address `addr`.  The `switch` has no
`default` label, so a value of `op` matching no `case` adds nothing after
the address prefix.  In `case OP_LD` the variable `target_addr` is computed
and never used.  Arguments of type `uint16_t` reach `printf` promoted
to `int`, hence non-negative. -/
def disassemble_instruction (addr instr : Nat) : String :=
  let op := instr >>> 12
  let out := "0x" ++ printf_04X addr ++ ": "
  if op = OP_ADD then
    let r0 := (instr >>> 9) &&& 0x7
    let r1 := (instr >>> 6) &&& 0x7
    let imm_flag := (instr >>> 5) &&& 0x1
    if imm_flag ≠ 0 then
      let imm5 := sign_extend (instr &&& 0x1F) 5
      out ++ "ADD R" ++ printf_d (Int.ofNat r0) ++ ", R" ++ printf_d (Int.ofNat r1)
        ++ ", #" ++ printf_d (Int.ofNat imm5) ++ "\n"
    else
      let r2 := instr &&& 0x7
      out ++ "ADD R" ++ printf_d (Int.ofNat r0) ++ ", R" ++ printf_d (Int.ofNat r1)
        ++ ", R" ++ printf_d (Int.ofNat r2) ++ "\n"
  else if op = OP_AND then
    let r0 := (instr >>> 9) &&& 0x7
    let r1 := (instr >>> 6) &&& 0x7
    let imm_flag := (instr >>> 5) &&& 0x1
    if imm_flag ≠ 0 then
      let imm5 := sign_extend (instr &&& 0x1F) 5
      out ++ "AND R" ++ printf_d (Int.ofNat r0) ++ ", R" ++ printf_d (Int.ofNat r1)
        ++ ", #" ++ printf_d (Int.ofNat imm5) ++ "\n"
    else
      let r2 := instr &&& 0x7
      out ++ "AND R" ++ printf_d (Int.ofNat r0) ++ ", R" ++ printf_d (Int.ofNat r1)
        ++ ", R" ++ printf_d (Int.ofNat r2) ++ "\n"
  else if op = OP_NOT then
    let r0 := (instr >>> 9) &&& 0x7
    let r1 := (instr >>> 6) &&& 0x7
    out ++ "NOT R" ++ printf_d (Int.ofNat r0) ++ ", R" ++ printf_d (Int.ofNat r1) ++ "\n"
  else if op = OP_BR then
    let pc_offset := sign_extend (instr &&& 0x1FF) 9
    let cond_flag := (instr >>> 9) &&& 0x7
    let target_addr := (pc_offset + addr + 1) % 65536
    out ++ "BR"
      ++ (if cond_flag &&& 0x4 ≠ 0 then "n" else "")
      ++ (if cond_flag &&& 0x2 ≠ 0 then "z" else "")
      ++ (if cond_flag &&& 0x1 ≠ 0 then "p" else "")
      ++ " " ++ printf_alt06x target_addr ++ "\n"
  else if op = OP_JMP then
    let r1 := (instr >>> 6) &&& 0x7
    if r1 ≠ 7 then
      out ++ "JMP r" ++ printf_d (Int.ofNat r1) ++ "\n"
    else
      out ++ "RET\n"
  else if op = OP_JSR then
    let long_flag := (instr >>> 11) &&& 1
    if long_flag ≠ 0 then
      let pc_offset := sign_extend (instr &&& 0x7FF) 11
      let target_addr := (addr + 1 + pc_offset) % 65536
      out ++ "JSR " ++ printf_alt06x target_addr ++ "\n"
    else
      let r1 := (instr >>> 6) &&& 0x7
      out ++ "JSRR R" ++ printf_d (Int.ofNat r1) ++ "\n"
  else if op = OP_LD then
    let r0 := (instr >>> 9) &&& 0x7
    let pc_offset := sign_extend (instr &&& 0x1FF) 9
    let target_addr := (addr + 1 + pc_offset) % 65536
    out ++ "LD R" ++ printf_d (Int.ofNat r0) ++ "\n"
  else if op = OP_LDI then
    let r0 := (instr >>> 9) &&& 0x7
    let pc_offset := sign_extend (instr &&& 0x1FF) 9
    let target_addr := (addr + 1 + pc_offset) % 65536
    out ++ "LDI R" ++ printf_d (Int.ofNat r0) ++ ", " ++ printf_alt06x target_addr ++ "\n"
  else if op = OP_LDR then
    let r0 := (instr >>> 9) &&& 0x7
    let r1 := (instr >>> 6) &&& 0x7
    let offset := sign_extend (instr &&& 0x3F) 6
    out ++ "LDR R" ++ printf_d (Int.ofNat r0) ++ ", R" ++ printf_d (Int.ofNat r1)
      ++ ", #" ++ printf_d (Int.ofNat offset) ++ "\n"
  else if op = OP_LEA then
    let r0 := (instr >>> 9) &&& 0x7
    let pc_offset := sign_extend (instr &&& 0x1FF) 9
    let target_addr := (addr + 1 + pc_offset) % 65536
    out ++ "LEA R" ++ printf_d (Int.ofNat r0) ++ ", " ++ printf_alt06x target_addr ++ "\n"
  else if op = OP_ST then
    let r0 := (instr >>> 9) &&& 0x7
    let pc_offset := sign_extend (instr &&& 0x1FF) 9
    let target_addr := (addr + 1 + pc_offset) % 65536
    out ++ "ST R" ++ printf_d (Int.ofNat r0) ++ ", " ++ printf_alt06x target_addr ++ "\n"
  else if op = OP_STI then
    let r0 := (instr >>> 9) &&& 0x7
    let pc_offset := sign_extend (instr &&& 0x1FF) 9
    let target_addr := (addr + 1 + pc_offset) % 65536
    out ++ "STI R" ++ printf_d (Int.ofNat r0) ++ ", " ++ printf_alt06x target_addr ++ "\n"
  else if op = OP_STR then
    let r0 := (instr >>> 9) &&& 0x7
    let r1 := (instr >>> 6) &&& 0x7
    let offset := sign_extend (instr &&& 0x3F) 6
    out ++ "STR R" ++ printf_d (Int.ofNat r0) ++ ", R" ++ printf_d (Int.ofNat r1)
      ++ ", #" ++ printf_d (Int.ofNat offset) ++ "\n"
  else if op = OP_NOP then
    out ++ "NOP\n"
  else if op = OP_CLR then
    let r0 := (instr >>> 9) &&& 0x7
    out ++ "CLR R" ++ printf_d (Int.ofNat r0)
  else if op = OP_INC then
    let r0 := (instr >>> 9) &&& 0x7
    out ++ "INC R" ++ printf_d (Int.ofNat r0)
  else if op = OP_DEC then
    let r0 := (instr >>> 9) &&& 0x7
    out ++ "DEC R" ++ printf_d (Int.ofNat r0)
  else if op = OP_TRAP then
    out ++ "TRAP 0x" ++ printf_02X OP_TRAP ++ "\n"
  else if op = OP_RES then
    out ++ "RES\n"
  else if op = OP_RTI then
    out ++ "RTI\n"
  else
    out

/-! ## The driver and the loader

A file is the list of its bytes.  The array `memory` is a map from addresses
to 16-bit words; it is a global and therefore starts as all zeros. -/

def MEMORY_MAX : Nat := 1 <<< 16

/-- The global array `memory` before anything is loaded. -/
def memory : Nat → Nat := fun _ => 0

/-- The `uint16_t` object that `fread` builds from two consecutive bytes of
the file, the first at the lower address.  The host is little-endian, as
the comment on `swap16` assumes. -/
def host_u16 (b0 b1 : Nat) : Nat := b0 + 256 * b1

/-- The call `fread(p, sizeof(uint16_t), count, file)`: complete items are
stored at `p[0]`, `p[1]`, ... until `count` items are read or fewer than two
bytes remain; the result is the memory and the number of items read.  When
one byte remains and an item is still asked for, the C library copies that
byte into the buffer: it becomes the byte at the lower address of the next
cell, whose other byte keeps its value, and the item is not counted. -/
def fread_u16 (mem : Nat → Nat) (p : Nat) : Nat → List Nat → (Nat → Nat) × Nat
  | 0, _ => (mem, 0)
  | count + 1, b0 :: b1 :: rest =>
      let r := fread_u16 (fun j => if j = p then host_u16 b0 b1 else mem j) (p + 1) count rest
      (r.1, r.2 + 1)
  | _ + 1, [b0] => (fun j => if j = p then host_u16 b0 (mem p / 256) else mem j, 0)
  | _ + 1, [] => (mem, 0)

/-- The function `disassemble_program`: the header, then the line of every
word from `origin` on, the address being truncated to 16 bits. -/
def disassemble_program (mem : Nat → Nat) (origin num_instructions : Nat) : String :=
  (List.range num_instructions).foldl
    (fun out i =>
      let addr := (origin + i) % 65536
      let instr := mem addr
      out ++ disassemble_instruction addr instr)
    "Disassembly Output:\n\n"

/-- The loading steps of `main` (and, word for word, of `read_obj_file`),
run on the contents `mem0` of the array `memory`: read the origin, swap it,
read up to `MEMORY_MAX - origin` words at `memory + origin`, swap each word
read.  The results of `fread` are not checked: the variable `origin` starts
with the indeterminate value `uninit` and keeps of it whatever the first
`fread` does not overwrite.  The result is the memory, the origin and the
number of words read. -/
def load_into (mem0 : Nat → Nat) (bytes : List Nat) (uninit : Nat) :
    (Nat → Nat) × Nat × Nat :=
  let origin0 := (fread_u16 (fun _ => uninit) 0 1 bytes).1 0
  let origin := swap16 origin0
  let r := fread_u16 mem0 origin (MEMORY_MAX - origin) (bytes.drop 2)
  let read_count := r.2
  let mem := (List.range read_count).foldl
    (fun m i => fun j => if j = origin + i then swap16 (m (origin + i)) else m j) r.1
  (mem, origin, read_count)

/-- The loading steps as `main` runs them, on the array `memory` in its
initial state. -/
def load (bytes : List Nat) (uninit : Nat) : (Nat → Nat) × Nat × Nat :=
  load_into memory bytes uninit

/-- The function `read_obj_file` on a file that could be opened: the memory
it leaves behind, `mem0` being what the array holds when it is called. -/
def read_obj_file (mem0 : Nat → Nat) (bytes : List Nat) (uninit : Nat) : Nat → Nat :=
  (load_into mem0 bytes uninit).1

/-- The function `main`: its return value and what it writes to standard
output.  `file` is `none` when the file cannot be opened; the messages on
standard error are not modelled. -/
def main (argc : Nat) (file : Option (List Nat)) (uninit : Nat) : Nat × String :=
  if argc ≠ 2 then (1, "")
  else
    match file with
    | none => (1, "")
    | some bytes =>
        let r := load bytes uninit
        (0, disassemble_program r.1 r.2.1 r.2.2)

/-! ## Specification-side notions -/

/-- Specification side: the `n`-bit field `x` read as a two's-complement
signed integer. -/
def signedValue (n x : Nat) : Int :=
  if x < 2 ^ (n - 1) then (x : Int) else (x : Int) - 2 ^ n

/-- Specification side: the value of one hexadecimal digit character. -/
def hexDigitValue (c : Char) : Nat :=
  if 48 ≤ c.toNat ∧ c.toNat ≤ 57 then c.toNat - 48
  else if 97 ≤ c.toNat ∧ c.toNat ≤ 102 then c.toNat - 87
  else if 65 ≤ c.toNat ∧ c.toNat ≤ 70 then c.toNat - 55
  else 0

/-- Specification side: the number a hexadecimal text denotes, with or
without a leading `0x`. -/
def readHex (s : String) : Nat :=
  match s.data with
  | '0' :: 'x' :: cs => cs.foldl (fun acc c => 16 * acc + hexDigitValue c) 0
  | cs => cs.foldl (fun acc c => 16 * acc + hexDigitValue c) 0

/-- Proof device: the opcode class whose mnemonic stands after the eight
characters of the address prefix of a line, read from the first characters
of that mnemonic; 16 when it is none of the sixteen classes. -/
def classOfLine (s : String) : Nat :=
  let t := (s.data.drop 8).take 3
  if (s.data.drop 8).take 2 = ['B', 'R'] then OP_BR
  else if t = ['A', 'D', 'D'] then OP_ADD
  else if t = ['L', 'D', ' '] then OP_LD
  else if t = ['S', 'T', ' '] then OP_ST
  else if t = ['J', 'S', 'R'] then OP_JSR
  else if t = ['A', 'N', 'D'] then OP_AND
  else if t = ['L', 'D', 'R'] then OP_LDR
  else if t = ['S', 'T', 'R'] then OP_STR
  else if t = ['R', 'T', 'I'] then OP_RTI
  else if t = ['N', 'O', 'T'] then OP_NOT
  else if t = ['L', 'D', 'I'] then OP_LDI
  else if t = ['S', 'T', 'I'] then OP_STI
  else if t = ['J', 'M', 'P'] ∨ t = ['R', 'E', 'T'] then OP_JMP
  else if t = ['R', 'E', 'S'] then OP_RES
  else if t = ['L', 'E', 'A'] then OP_LEA
  else if t = ['T', 'R', 'A'] then OP_TRAP
  else 16

/-! ## Lemmas on the `printf` conversions -/

theorem digitsRev_succ (base fuel n : Nat) :
    digitsRev base (fuel + 1) n =
      (n % base) :: (if n / base = 0 then [] else digitsRev base fuel (n / base)) := rfl

theorem digitChar_zero (u : Bool) : digitChar u 0 = '0' := by
  cases u <;> decide

/-- Below the base a number is its own single digit. -/
theorem digitString_of_lt (base : Nat) (u : Bool) (n : Nat) (h : n < base) :
    digitString base u n = [digitChar u n] := by
  simp [digitString, digitsRev_succ, Nat.div_eq_of_lt h, Nat.mod_eq_of_lt h]

theorem digitsRev_hex4 (fuel n : Nat) (hf : n < fuel) (hn : n < 65536) :
    digitsRev 16 fuel n =
      if n < 16 then [n]
      else if n < 256 then [n % 16, n / 16]
      else if n < 4096 then [n % 16, n / 16 % 16, n / 256]
      else [n % 16, n / 16 % 16, n / 256 % 16, n / 4096] := by
  obtain ⟨f1, rfl⟩ : ∃ f1, fuel = f1 + 1 := ⟨fuel - 1, by omega⟩
  rw [digitsRev_succ]
  by_cases h1 : n < 16
  · simp [h1, Nat.div_eq_of_lt h1, Nat.mod_eq_of_lt h1]
  have h1' : ¬ n / 16 = 0 := by omega
  obtain ⟨f2, rfl⟩ : ∃ f2, f1 = f2 + 1 := ⟨f1 - 1, by omega⟩
  rw [digitsRev_succ, Nat.div_div_eq_div_mul]
  by_cases h2 : n < 256
  · have : n / (16 * 16) = 0 := by omega
    have e : n / 16 % 16 = n / 16 := by omega
    simp [h1, h2, h1', this, e]
  have h2' : ¬ n / (16 * 16) = 0 := by omega
  obtain ⟨f3, rfl⟩ : ∃ f3, f2 = f3 + 1 := ⟨f2 - 1, by omega⟩
  rw [digitsRev_succ, Nat.div_div_eq_div_mul]
  by_cases h3 : n < 4096
  · have : n / (16 * 16 * 16) = 0 := by omega
    have e : n / (16 * 16) % 16 = n / 256 := by omega
    simp [h1, h2, h3, h1', h2', this, e]
  have h3' : ¬ n / (16 * 16 * 16) = 0 := by omega
  obtain ⟨f4, rfl⟩ : ∃ f4, f3 = f4 + 1 := ⟨f3 - 1, by omega⟩
  rw [digitsRev_succ, Nat.div_div_eq_div_mul]
  have : n / (16 * 16 * 16 * 16) = 0 := by omega
  have e : n / (16 * 16 * 16) % 16 = n / 4096 := by omega
  have e2 : n / (16 * 16) % 16 = n / 256 % 16 := by omega
  simp [h1, h2, h3, h1', h2', h3', this, e, e2]

/-- Four hexadecimal digits of a 16-bit value, most significant first. -/
theorem zeroPad4_hex (u : Bool) (n : Nat) (hn : n < 65536) :
    zeroPad 4 (digitString 16 u n) =
      [digitChar u (n / 4096), digitChar u (n / 256 % 16),
       digitChar u (n / 16 % 16), digitChar u (n % 16)] := by
  have hz := digitChar_zero u
  rw [digitString, digitsRev_hex4 (n + 1) n (Nat.lt_succ_self n) hn]
  by_cases h1 : n < 16
  · have a1 : n / 4096 = 0 := by omega
    have a2 : n / 256 % 16 = 0 := by omega
    have a3 : n / 16 % 16 = 0 := by omega
    have a4 : n % 16 = n := by omega
    simp [h1, zeroPad, a1, a2, a3, a4, hz, List.replicate]
  by_cases h2 : n < 256
  · have a1 : n / 4096 = 0 := by omega
    have a2 : n / 256 % 16 = 0 := by omega
    have a3 : n / 16 % 16 = n / 16 := by omega
    simp [h1, h2, zeroPad, a1, a2, a3, hz, List.replicate]
  by_cases h3 : n < 4096
  · have a1 : n / 4096 = 0 := by omega
    have a2 : n / 256 % 16 = n / 256 := by omega
    simp [h1, h2, h3, zeroPad, a1, a2, hz, List.replicate]
  simp [h1, h2, h3, zeroPad]

theorem digitsRev_lt (base : Nat) (hb : 0 < base) :
    ∀ (fuel n d : Nat), d ∈ digitsRev base fuel n → d < base := by
  intro fuel
  induction fuel with
  | zero => intro n d h; simp [digitsRev] at h
  | succ f ih =>
    intro n d h
    rw [digitsRev_succ] at h
    rcases List.mem_cons.mp h with h | h
    · subst h; exact Nat.mod_lt _ hb
    · split at h
      · simp at h
      · exact ih _ _ h

/-- With more fuel than the number itself and a base of at least two, the
digits produced are all the digits: they evaluate back to the number. -/
theorem digitsRev_value (base : Nat) (hb : 2 ≤ base) :
    ∀ (fuel n : Nat), n < fuel →
      (digitsRev base fuel n).foldr (fun d acc => d + base * acc) 0 = n := by
  intro fuel
  induction fuel with
  | zero => intro n h; omega
  | succ f ih =>
    intro n h
    rw [digitsRev_succ]
    by_cases h0 : n / base = 0
    · have hlt : n < base := by
        rcases Nat.lt_or_ge n base with h1 | h1
        · exact h1
        · have := Nat.div_pos h1 (by omega : 0 < base)
          omega
      simp [h0, Nat.mod_eq_of_lt hlt]
    · have hge : base ≤ n := by
        rcases Nat.lt_or_ge n base with h1 | h1
        · exact absurd (Nat.div_eq_of_lt h1) h0
        · exact h1
      have hdiv : n / base < n := Nat.div_lt_self (by omega) (by omega)
      rw [if_neg h0, List.foldr_cons, ih (n / base) (by omega)]
      exact Nat.mod_add_div n base

theorem digitChar_ne_newline (u : Bool) (d : Nat) (hd : d < 16) : digitChar u d ≠ '\n' := by
  interval_cases d <;> cases u <;> decide

/-! ## Lemmas on bit fields and `sign_extend` -/

theorem and_7 (x : Nat) : x &&& 0x7 = x % 8 := Nat.and_pow_two_sub_one_eq_mod x 3
theorem and_1F (x : Nat) : x &&& 0x1F = x % 32 := Nat.and_pow_two_sub_one_eq_mod x 5
theorem and_3F (x : Nat) : x &&& 0x3F = x % 64 := Nat.and_pow_two_sub_one_eq_mod x 6
theorem and_FF (x : Nat) : x &&& 0xFF = x % 256 := Nat.and_pow_two_sub_one_eq_mod x 8
theorem and_1FF (x : Nat) : x &&& 0x1FF = x % 512 := Nat.and_pow_two_sub_one_eq_mod x 9
theorem and_7FF (x : Nat) : x &&& 0x7FF = x % 2048 := Nat.and_pow_two_sub_one_eq_mod x 11
theorem and_1 (x : Nat) : x &&& 1 = x % 2 := Nat.and_one_is_mod x

theorem shr_eq (x k : Nat) : x >>> k = x / 2 ^ k := Nat.shiftRight_eq_div_pow x k

/-- Below `2 ^ n` the value and the shifted mask share no bit, so the
bitwise OR is a sum. -/
theorem lor_mask (x n : Nat) (hx : x < 2 ^ n) :
    x ||| (0xFFFF <<< n) = 2 ^ n * 0xFFFF + x := by
  rw [Nat.shiftLeft_eq, Nat.lor_comm, Nat.mul_comm, ← Nat.mul_add_lt_is_or hx]

/-- The function `sign_extend` in arithmetic form, for the four widths in use. -/
theorem sign_extend_arith (n x : Nat) (hn : n = 5 ∨ n = 6 ∨ n = 9 ∨ n = 11)
    (hx : x < 2 ^ n) :
    sign_extend x n = if x < 2 ^ (n - 1) then x else x + 2 ^ 16 - 2 ^ n := by
  unfold sign_extend
  rw [lor_mask x n hx, and_1, shr_eq]
  rcases hn with rfl | rfl | rfl | rfl <;> norm_num at hx ⊢ <;> split <;> split <;> omega

theorem digitString_no_newline (base : Nat) (u : Bool) (n : Nat)
    (hb : 0 < base) (hb16 : base ≤ 16) : '\n' ∉ digitString base u n := by
  intro h
  simp only [digitString, List.mem_map, List.mem_reverse] at h
  obtain ⟨d, hd, he⟩ := h
  exact digitChar_ne_newline u d (Nat.lt_of_lt_of_le (digitsRev_lt base hb _ _ _ hd) hb16) he

theorem zeroPad_no_newline (k : Nat) (cs : List Char) (h : '\n' ∉ cs) :
    '\n' ∉ zeroPad k cs := by
  intro hm
  rcases List.mem_append.mp hm with hm | hm
  · have := List.eq_of_mem_replicate hm
    revert this; decide
  · exact h hm

theorem printf_d_no_newline (v : Int) : '\n' ∉ (printf_d v).data := by
  unfold printf_d
  split
  · intro h
    rcases List.mem_cons.mp h with h | h
    · revert h; decide
    · exact digitString_no_newline 10 false _ (by decide) (by decide) h
  · exact digitString_no_newline 10 false _ (by decide) (by decide)

theorem printf_04X_no_newline (n : Nat) : '\n' ∉ (printf_04X n).data :=
  zeroPad_no_newline _ _ (digitString_no_newline 16 true n (by decide) (by decide))

theorem printf_02X_no_newline (n : Nat) : '\n' ∉ (printf_02X n).data :=
  zeroPad_no_newline _ _ (digitString_no_newline 16 true n (by decide) (by decide))

theorem printf_alt06x_no_newline (n : Nat) : '\n' ∉ (printf_alt06x n).data := by
  unfold printf_alt06x
  split
  · exact zeroPad_no_newline _ _ (digitString_no_newline 16 false n (by decide) (by decide))
  · intro h
    rcases List.mem_cons.mp h with h | h
    · revert h; decide
    rcases List.mem_cons.mp h with h | h
    · revert h; decide
    · exact zeroPad_no_newline _ _
        (digitString_no_newline 16 false n (by decide) (by decide)) h

/-- The opcode field of a 16-bit word is one of the sixteen values 0..15. -/
theorem op_lt_16 (w : Nat) (hw : w < 65536) : w >>> 12 < 16 := by
  rw [shr_eq]; omega

/-- Membership of the newline in an appended string. -/
theorem newline_append (s t : String) :
    '\n' ∈ (s ++ t).data ↔ '\n' ∈ s.data ∨ '\n' ∈ t.data := by
  rw [String.data_append, List.mem_append]

/-! ## The sixteen cases of the `switch`, one lemma per opcode value -/

theorem dis_ADD (a w : Nat) (hop : w >>> 12 = 1) :
    disassemble_instruction a w =
      if (w >>> 5) &&& 0x1 ≠ 0 then
        "0x" ++ printf_04X a ++ ": " ++ "ADD R" ++ printf_d (Int.ofNat ((w >>> 9) &&& 0x7))
          ++ ", R" ++ printf_d (Int.ofNat ((w >>> 6) &&& 0x7))
          ++ ", #" ++ printf_d (Int.ofNat (sign_extend (w &&& 0x1F) 5)) ++ "\n"
      else
        "0x" ++ printf_04X a ++ ": " ++ "ADD R" ++ printf_d (Int.ofNat ((w >>> 9) &&& 0x7))
          ++ ", R" ++ printf_d (Int.ofNat ((w >>> 6) &&& 0x7))
          ++ ", R" ++ printf_d (Int.ofNat (w &&& 0x7)) ++ "\n" := by
  simp [disassemble_instruction, hop, OP_ADD]

theorem dis_AND (a w : Nat) (hop : w >>> 12 = 5) :
    disassemble_instruction a w =
      if (w >>> 5) &&& 0x1 ≠ 0 then
        "0x" ++ printf_04X a ++ ": " ++ "AND R" ++ printf_d (Int.ofNat ((w >>> 9) &&& 0x7))
          ++ ", R" ++ printf_d (Int.ofNat ((w >>> 6) &&& 0x7))
          ++ ", #" ++ printf_d (Int.ofNat (sign_extend (w &&& 0x1F) 5)) ++ "\n"
      else
        "0x" ++ printf_04X a ++ ": " ++ "AND R" ++ printf_d (Int.ofNat ((w >>> 9) &&& 0x7))
          ++ ", R" ++ printf_d (Int.ofNat ((w >>> 6) &&& 0x7))
          ++ ", R" ++ printf_d (Int.ofNat (w &&& 0x7)) ++ "\n" := by
  simp [disassemble_instruction, hop, OP_ADD, OP_AND]

theorem dis_NOT (a w : Nat) (hop : w >>> 12 = 9) :
    disassemble_instruction a w =
      "0x" ++ printf_04X a ++ ": " ++ "NOT R" ++ printf_d (Int.ofNat ((w >>> 9) &&& 0x7))
        ++ ", R" ++ printf_d (Int.ofNat ((w >>> 6) &&& 0x7)) ++ "\n" := by
  simp [disassemble_instruction, hop, OP_ADD, OP_AND, OP_NOT]

theorem dis_BR (a w : Nat) (hop : w >>> 12 = 0) :
    disassemble_instruction a w =
      "0x" ++ printf_04X a ++ ": " ++ "BR"
        ++ (if ((w >>> 9) &&& 0x7) &&& 0x4 ≠ 0 then "n" else "")
        ++ (if ((w >>> 9) &&& 0x7) &&& 0x2 ≠ 0 then "z" else "")
        ++ (if ((w >>> 9) &&& 0x7) &&& 0x1 ≠ 0 then "p" else "")
        ++ " " ++ printf_alt06x ((sign_extend (w &&& 0x1FF) 9 + a + 1) % 65536) ++ "\n" := by
  simp [disassemble_instruction, hop, OP_ADD, OP_AND, OP_NOT, OP_BR]

theorem dis_JMP (a w : Nat) (hop : w >>> 12 = 12) :
    disassemble_instruction a w =
      if (w >>> 6) &&& 0x7 ≠ 7 then
        "0x" ++ printf_04X a ++ ": " ++ "JMP r" ++ printf_d (Int.ofNat ((w >>> 6) &&& 0x7)) ++ "\n"
      else "0x" ++ printf_04X a ++ ": " ++ "RET\n" := by
  simp [disassemble_instruction, hop, OP_ADD, OP_AND, OP_NOT, OP_BR, OP_JMP]

theorem dis_JSR (a w : Nat) (hop : w >>> 12 = 4) :
    disassemble_instruction a w =
      if (w >>> 11) &&& 1 ≠ 0 then
        "0x" ++ printf_04X a ++ ": " ++ "JSR "
          ++ printf_alt06x ((a + 1 + sign_extend (w &&& 0x7FF) 11) % 65536) ++ "\n"
      else
        "0x" ++ printf_04X a ++ ": " ++ "JSRR R" ++ printf_d (Int.ofNat ((w >>> 6) &&& 0x7))
          ++ "\n" := by
  simp [disassemble_instruction, hop, OP_ADD, OP_AND, OP_NOT, OP_BR, OP_JMP, OP_JSR]

theorem dis_LD (a w : Nat) (hop : w >>> 12 = 2) :
    disassemble_instruction a w =
      "0x" ++ printf_04X a ++ ": " ++ "LD R" ++ printf_d (Int.ofNat ((w >>> 9) &&& 0x7))
        ++ "\n" := by
  simp [disassemble_instruction, hop, OP_ADD, OP_AND, OP_NOT, OP_BR, OP_JMP, OP_JSR, OP_LD]

theorem dis_LDI (a w : Nat) (hop : w >>> 12 = 10) :
    disassemble_instruction a w =
      "0x" ++ printf_04X a ++ ": " ++ "LDI R" ++ printf_d (Int.ofNat ((w >>> 9) &&& 0x7))
        ++ ", " ++ printf_alt06x ((a + 1 + sign_extend (w &&& 0x1FF) 9) % 65536) ++ "\n" := by
  simp [disassemble_instruction, hop, OP_ADD, OP_AND, OP_NOT, OP_BR, OP_JMP, OP_JSR, OP_LD,
    OP_LDI]

theorem dis_LDR (a w : Nat) (hop : w >>> 12 = 6) :
    disassemble_instruction a w =
      "0x" ++ printf_04X a ++ ": " ++ "LDR R" ++ printf_d (Int.ofNat ((w >>> 9) &&& 0x7))
        ++ ", R" ++ printf_d (Int.ofNat ((w >>> 6) &&& 0x7))
        ++ ", #" ++ printf_d (Int.ofNat (sign_extend (w &&& 0x3F) 6)) ++ "\n" := by
  simp [disassemble_instruction, hop, OP_ADD, OP_AND, OP_NOT, OP_BR, OP_JMP, OP_JSR, OP_LD,
    OP_LDI, OP_LDR]

theorem dis_LEA (a w : Nat) (hop : w >>> 12 = 14) :
    disassemble_instruction a w =
      "0x" ++ printf_04X a ++ ": " ++ "LEA R" ++ printf_d (Int.ofNat ((w >>> 9) &&& 0x7))
        ++ ", " ++ printf_alt06x ((a + 1 + sign_extend (w &&& 0x1FF) 9) % 65536) ++ "\n" := by
  simp [disassemble_instruction, hop, OP_ADD, OP_AND, OP_NOT, OP_BR, OP_JMP, OP_JSR, OP_LD,
    OP_LDI, OP_LDR, OP_LEA]

theorem dis_ST (a w : Nat) (hop : w >>> 12 = 3) :
    disassemble_instruction a w =
      "0x" ++ printf_04X a ++ ": " ++ "ST R" ++ printf_d (Int.ofNat ((w >>> 9) &&& 0x7))
        ++ ", " ++ printf_alt06x ((a + 1 + sign_extend (w &&& 0x1FF) 9) % 65536) ++ "\n" := by
  simp [disassemble_instruction, hop, OP_ADD, OP_AND, OP_NOT, OP_BR, OP_JMP, OP_JSR, OP_LD,
    OP_LDI, OP_LDR, OP_LEA, OP_ST]

theorem dis_STI (a w : Nat) (hop : w >>> 12 = 11) :
    disassemble_instruction a w =
      "0x" ++ printf_04X a ++ ": " ++ "STI R" ++ printf_d (Int.ofNat ((w >>> 9) &&& 0x7))
        ++ ", " ++ printf_alt06x ((a + 1 + sign_extend (w &&& 0x1FF) 9) % 65536) ++ "\n" := by
  simp [disassemble_instruction, hop, OP_ADD, OP_AND, OP_NOT, OP_BR, OP_JMP, OP_JSR, OP_LD,
    OP_LDI, OP_LDR, OP_LEA, OP_ST, OP_STI]

theorem dis_STR (a w : Nat) (hop : w >>> 12 = 7) :
    disassemble_instruction a w =
      "0x" ++ printf_04X a ++ ": " ++ "STR R" ++ printf_d (Int.ofNat ((w >>> 9) &&& 0x7))
        ++ ", R" ++ printf_d (Int.ofNat ((w >>> 6) &&& 0x7))
        ++ ", #" ++ printf_d (Int.ofNat (sign_extend (w &&& 0x3F) 6)) ++ "\n" := by
  simp [disassemble_instruction, hop, OP_ADD, OP_AND, OP_NOT, OP_BR, OP_JMP, OP_JSR, OP_LD,
    OP_LDI, OP_LDR, OP_LEA, OP_ST, OP_STI, OP_STR]

theorem dis_TRAP (a w : Nat) (hop : w >>> 12 = 15) :
    disassemble_instruction a w =
      "0x" ++ printf_04X a ++ ": " ++ "TRAP 0x" ++ printf_02X OP_TRAP ++ "\n" := by
  simp [disassemble_instruction, hop, OP_ADD, OP_AND, OP_NOT, OP_BR, OP_JMP, OP_JSR, OP_LD,
    OP_LDI, OP_LDR, OP_LEA, OP_ST, OP_STI, OP_STR, OP_NOP, OP_CLR, OP_INC, OP_DEC, OP_TRAP]

theorem dis_RES (a w : Nat) (hop : w >>> 12 = 13) :
    disassemble_instruction a w = "0x" ++ printf_04X a ++ ": " ++ "RES\n" := by
  simp [disassemble_instruction, hop, OP_ADD, OP_AND, OP_NOT, OP_BR, OP_JMP, OP_JSR, OP_LD,
    OP_LDI, OP_LDR, OP_LEA, OP_ST, OP_STI, OP_STR, OP_NOP, OP_CLR, OP_INC, OP_DEC, OP_TRAP,
    OP_RES]

theorem dis_RTI (a w : Nat) (hop : w >>> 12 = 8) :
    disassemble_instruction a w = "0x" ++ printf_04X a ++ ": " ++ "RTI\n" := by
  simp [disassemble_instruction, hop, OP_ADD, OP_AND, OP_NOT, OP_BR, OP_JMP, OP_JSR, OP_LD,
    OP_LDI, OP_LDR, OP_LEA, OP_ST, OP_STI, OP_STR, OP_NOP, OP_CLR, OP_INC, OP_DEC, OP_TRAP,
    OP_RES, OP_RTI]

/-- A value below ten printed with `%d` is its single decimal digit. -/
theorem printf_d_digit (r : Nat) (hr : r < 10) :
    printf_d (Int.ofNat r) = String.mk [Char.ofNat (48 + r)] := by
  have h : ¬ (Int.ofNat r < 0) := by simp
  have e : (Int.ofNat r).toNat = r := rfl
  rw [printf_d, if_neg h, e, digitString_of_lt 10 false r hr, digitChar, if_pos hr]

/-! ## Lemmas on target addresses -/

/-- The 16-bit sum the code computes is the signed sum reduced modulo
`2 ^ 16`. -/
theorem target_eq (n f a : Nat) (hn : n = 9 ∨ n = 11) (hf : f < 2 ^ n) :
    (a + 1 + sign_extend f n) % 65536
      = (((a : Int) + 1 + signedValue n f) % 65536).toNat := by
  have h := sign_extend_arith n f (by omega) hf
  unfold signedValue
  rcases hn with rfl | rfl <;> norm_num at hf h ⊢ <;> rw [h] <;> split <;> omega

theorem hexDigitValue_digitChar (u : Bool) (d : Nat) (hd : d < 16) :
    hexDigitValue (digitChar u d) = d := by
  interval_cases d <;> cases u <;> decide

/-- Reading back what `%#06x` prints gives the value printed. -/
theorem readHex_printf_alt06x (t : Nat) (ht : t < 65536) :
    readHex (printf_alt06x t) = t := by
  unfold printf_alt06x
  by_cases h0 : t = 0
  · subst h0; decide
  · rw [if_neg h0, zeroPad4_hex false t ht]
    simp only [readHex, List.foldl_cons, List.foldl_nil,
      hexDigitValue_digitChar false _ (show t / 4096 < 16 by omega),
      hexDigitValue_digitChar false _ (show t / 256 % 16 < 16 by omega),
      hexDigitValue_digitChar false _ (show t / 16 % 16 < 16 by omega),
      hexDigitValue_digitChar false _ (show t % 16 < 16 by omega)]
    omega

/-- A nonzero 16-bit value printed with `%#06x` is `0x` followed by its four
lower-case hexadecimal digits. -/
theorem printf_alt06x_nonzero (t : Nat) (h0 : t ≠ 0) (ht : t < 65536) :
    printf_alt06x t = String.mk ['0', 'x', digitChar false (t / 4096),
      digitChar false (t / 256 % 16), digitChar false (t / 16 % 16),
      digitChar false (t % 16)] := by
  rw [printf_alt06x, if_neg h0, zeroPad4_hex false t ht]

/-- The eight mnemonics the `BR` case can print. -/
theorem br_mnemonic_mem (c : Nat) :
    "BR" ++ (if c &&& 0x4 ≠ 0 then "n" else "") ++ (if c &&& 0x2 ≠ 0 then "z" else "")
        ++ (if c &&& 0x1 ≠ 0 then "p" else "")
      ∈ ["BR", "BRp", "BRz", "BRzp", "BRn", "BRnp", "BRnz", "BRnzp"] := by
  split <;> split <;> split <;> decide

/-! ## Claims -/

/-- C1: for every 16-bit address `a` and word `w` the decoder writes exactly
one line: `0x`, the four upper-case hexadecimal digits of `a`, `: `, a
non-empty mnemonic text `m`, and a final newline, which is the only newline
in the output. -/
theorem C1_one_line_per_word (a w : Nat) (ha : a < 65536) (hw : w < 65536) :
    ∃ m : String,
      disassemble_instruction a w = "0x" ++ printf_04X a ++ ": " ++ m ++ "\n" ∧
      printf_04X a = String.mk [digitChar true (a / 4096), digitChar true (a / 256 % 16),
        digitChar true (a / 16 % 16), digitChar true (a % 16)] ∧
      m ≠ "" ∧
      '\n' ∉ ("0x" ++ printf_04X a ++ ": " ++ m).data := by
  have hlt := op_lt_16 w hw
  obtain ⟨op, hop⟩ : ∃ op, w >>> 12 = op := ⟨_, rfl⟩
  rw [hop] at hlt
  have n1 := printf_04X_no_newline a
  have n2 := printf_d_no_newline
  have n3 := printf_alt06x_no_newline
  have n4 := printf_02X_no_newline
  have hx : printf_04X a = String.mk [digitChar true (a / 4096), digitChar true (a / 256 % 16),
        digitChar true (a / 16 % 16), digitChar true (a % 16)] := by
    rw [printf_04X, zeroPad4_hex true a ha]
  interval_cases op
  · rw [dis_BR a w hop]
    refine ⟨"BR" ++ (if ((w >>> 9) &&& 0x7) &&& 0x4 ≠ 0 then "n" else "")
        ++ (if ((w >>> 9) &&& 0x7) &&& 0x2 ≠ 0 then "z" else "")
        ++ (if ((w >>> 9) &&& 0x7) &&& 0x1 ≠ 0 then "p" else "")
        ++ " " ++ printf_alt06x ((sign_extend (w &&& 0x1FF) 9 + a + 1) % 65536),
      by simp only [String.append_assoc], hx, by simp [String.ext_iff], ?_⟩
    simp only [newline_append, not_or]
    repeat' apply And.intro
    all_goals first | exact n1 | exact n3 _ | decide | (split <;> decide)
  · rw [dis_ADD a w hop]
    split
    · exact ⟨"ADD R" ++ printf_d (Int.ofNat ((w >>> 9) &&& 0x7))
          ++ ", R" ++ printf_d (Int.ofNat ((w >>> 6) &&& 0x7))
          ++ ", #" ++ printf_d (Int.ofNat (sign_extend (w &&& 0x1F) 5)),
        by simp only [String.append_assoc], hx,
        by simp [String.ext_iff], by simp [newline_append, n1, n2, n3, n4]⟩
    · exact ⟨"ADD R" ++ printf_d (Int.ofNat ((w >>> 9) &&& 0x7))
          ++ ", R" ++ printf_d (Int.ofNat ((w >>> 6) &&& 0x7))
          ++ ", R" ++ printf_d (Int.ofNat (w &&& 0x7)),
        by simp only [String.append_assoc], hx,
        by simp [String.ext_iff], by simp [newline_append, n1, n2, n3, n4]⟩
  · rw [dis_LD a w hop]
    exact ⟨"LD R" ++ printf_d (Int.ofNat ((w >>> 9) &&& 0x7)),
      by simp only [String.append_assoc], hx,
      by simp [String.ext_iff], by simp [newline_append, n1, n2, n3, n4]⟩
  · rw [dis_ST a w hop]
    exact ⟨"ST R" ++ printf_d (Int.ofNat ((w >>> 9) &&& 0x7)) ++ ", "
        ++ printf_alt06x ((a + 1 + sign_extend (w &&& 0x1FF) 9) % 65536),
      by simp only [String.append_assoc], hx,
      by simp [String.ext_iff], by simp [newline_append, n1, n2, n3, n4]⟩
  · rw [dis_JSR a w hop]
    split
    · exact ⟨"JSR " ++ printf_alt06x ((a + 1 + sign_extend (w &&& 0x7FF) 11) % 65536),
        by simp only [String.append_assoc], hx,
        by simp [String.ext_iff], by simp [newline_append, n1, n2, n3, n4]⟩
    · exact ⟨"JSRR R" ++ printf_d (Int.ofNat ((w >>> 6) &&& 0x7)),
        by simp only [String.append_assoc], hx,
        by simp [String.ext_iff], by simp [newline_append, n1, n2, n3, n4]⟩
  · rw [dis_AND a w hop]
    split
    · exact ⟨"AND R" ++ printf_d (Int.ofNat ((w >>> 9) &&& 0x7))
          ++ ", R" ++ printf_d (Int.ofNat ((w >>> 6) &&& 0x7))
          ++ ", #" ++ printf_d (Int.ofNat (sign_extend (w &&& 0x1F) 5)),
        by simp only [String.append_assoc], hx,
        by simp [String.ext_iff], by simp [newline_append, n1, n2, n3, n4]⟩
    · exact ⟨"AND R" ++ printf_d (Int.ofNat ((w >>> 9) &&& 0x7))
          ++ ", R" ++ printf_d (Int.ofNat ((w >>> 6) &&& 0x7))
          ++ ", R" ++ printf_d (Int.ofNat (w &&& 0x7)),
        by simp only [String.append_assoc], hx,
        by simp [String.ext_iff], by simp [newline_append, n1, n2, n3, n4]⟩
  · rw [dis_LDR a w hop]
    exact ⟨"LDR R" ++ printf_d (Int.ofNat ((w >>> 9) &&& 0x7))
        ++ ", R" ++ printf_d (Int.ofNat ((w >>> 6) &&& 0x7))
        ++ ", #" ++ printf_d (Int.ofNat (sign_extend (w &&& 0x3F) 6)),
      by simp only [String.append_assoc], hx,
      by simp [String.ext_iff], by simp [newline_append, n1, n2, n3, n4]⟩
  · rw [dis_STR a w hop]
    exact ⟨"STR R" ++ printf_d (Int.ofNat ((w >>> 9) &&& 0x7))
        ++ ", R" ++ printf_d (Int.ofNat ((w >>> 6) &&& 0x7))
        ++ ", #" ++ printf_d (Int.ofNat (sign_extend (w &&& 0x3F) 6)),
      by simp only [String.append_assoc], hx,
      by simp [String.ext_iff], by simp [newline_append, n1, n2, n3, n4]⟩
  · rw [dis_RTI a w hop]
    exact ⟨"RTI",
      by simp only [String.append_assoc]; rfl, hx,
      by simp [String.ext_iff], by simp [newline_append, n1, n2, n3, n4]⟩
  · rw [dis_NOT a w hop]
    exact ⟨"NOT R" ++ printf_d (Int.ofNat ((w >>> 9) &&& 0x7))
        ++ ", R" ++ printf_d (Int.ofNat ((w >>> 6) &&& 0x7)),
      by simp only [String.append_assoc], hx,
      by simp [String.ext_iff], by simp [newline_append, n1, n2, n3, n4]⟩
  · rw [dis_LDI a w hop]
    exact ⟨"LDI R" ++ printf_d (Int.ofNat ((w >>> 9) &&& 0x7)) ++ ", "
        ++ printf_alt06x ((a + 1 + sign_extend (w &&& 0x1FF) 9) % 65536),
      by simp only [String.append_assoc], hx,
      by simp [String.ext_iff], by simp [newline_append, n1, n2, n3, n4]⟩
  · rw [dis_STI a w hop]
    exact ⟨"STI R" ++ printf_d (Int.ofNat ((w >>> 9) &&& 0x7)) ++ ", "
        ++ printf_alt06x ((a + 1 + sign_extend (w &&& 0x1FF) 9) % 65536),
      by simp only [String.append_assoc], hx,
      by simp [String.ext_iff], by simp [newline_append, n1, n2, n3, n4]⟩
  · rw [dis_JMP a w hop]
    split
    · exact ⟨"JMP r" ++ printf_d (Int.ofNat ((w >>> 6) &&& 0x7)),
        by simp only [String.append_assoc], hx,
        by simp [String.ext_iff], by simp [newline_append, n1, n2, n3, n4]⟩
    · exact ⟨"RET",
        by simp only [String.append_assoc]; rfl, hx,
        by simp [String.ext_iff], by simp [newline_append, n1, n2, n3, n4]⟩
  · rw [dis_RES a w hop]
    exact ⟨"RES",
      by simp only [String.append_assoc]; rfl, hx,
      by simp [String.ext_iff], by simp [newline_append, n1, n2, n3, n4]⟩
  · rw [dis_LEA a w hop]
    exact ⟨"LEA R" ++ printf_d (Int.ofNat ((w >>> 9) &&& 0x7)) ++ ", "
        ++ printf_alt06x ((a + 1 + sign_extend (w &&& 0x1FF) 9) % 65536),
      by simp only [String.append_assoc], hx,
      by simp [String.ext_iff], by simp [newline_append, n1, n2, n3, n4]⟩
  · rw [dis_TRAP a w hop]
    exact ⟨"TRAP 0x" ++ printf_02X OP_TRAP,
      by simp only [String.append_assoc], hx,
      by simp [String.ext_iff], by simp [newline_append, n1, n2, n3, n4]⟩

/-- Witness for C1 at address `0x3000` and word `0x1066`, with the line the
decoder writes there. -/
theorem C1_one_line_per_word_witness :
    0x3000 < 65536 ∧ 0x1066 < 65536 ∧
    (∃ m : String,
      disassemble_instruction 0x3000 0x1066 = "0x" ++ printf_04X 0x3000 ++ ": " ++ m ++ "\n" ∧
      printf_04X 0x3000 = String.mk [digitChar true (0x3000 / 4096),
        digitChar true (0x3000 / 256 % 16), digitChar true (0x3000 / 16 % 16),
        digitChar true (0x3000 % 16)] ∧
      m ≠ "" ∧
      '\n' ∉ ("0x" ++ printf_04X 0x3000 ++ ": " ++ m).data) ∧
    disassemble_instruction 0x3000 0x1066 = "0x3000: ADD R0, R1, #6\n" :=
  ⟨by decide, by decide, C1_one_line_per_word 0x3000 0x1066 (by decide) (by decide),
    by decide⟩

/-- C2: for each width `n` in use (5, 6, 9, 11) and each `n`-bit value `x`,
`sign_extend x n` is `x` when bit `n-1` is clear and `x + 2^16 - 2^n` when it
is set; it is a 16-bit value, namely the two's-complement representation of
`x` read as an `n`-bit signed integer.  In particular
`sign_extend 0b01111 5 = 0x000F` and `sign_extend 0b10000 5 = 0xFFF0`. -/
theorem C2_sign_extend_twos_complement (n x : Nat)
    (hn : n = 5 ∨ n = 6 ∨ n = 9 ∨ n = 11) (hx : x < 2 ^ n) :
    (Nat.testBit x (n - 1) = false → sign_extend x n = x) ∧
    (Nat.testBit x (n - 1) = true → sign_extend x n = x + 2 ^ 16 - 2 ^ n) ∧
    sign_extend x n < 2 ^ 16 ∧
    (sign_extend x n : Int) = signedValue n x % 2 ^ 16 ∧
    sign_extend 0b01111 5 = 0x000F ∧ sign_extend 0b10000 5 = 0xFFF0 := by
  have h := sign_extend_arith n x hn hx
  have ht : Nat.testBit x (n - 1) = decide (x / 2 ^ (n - 1) % 2 = 1) :=
    Nat.testBit_to_div_mod
  refine ⟨?_, ?_, ?_, ?_, by decide, by decide⟩
  · intro hb
    rw [ht] at hb
    rcases hn with rfl | rfl | rfl | rfl <;> norm_num at hx h hb ⊢ <;>
      rw [h, if_pos (by omega)]
  · intro hb
    rw [ht] at hb
    rcases hn with rfl | rfl | rfl | rfl <;> norm_num at hx h hb ⊢ <;>
      rw [h, if_neg (by omega)]
  · rcases hn with rfl | rfl | rfl | rfl <;> norm_num at hx h ⊢ <;>
      rw [h] <;> split <;> omega
  · unfold signedValue
    rcases hn with rfl | rfl | rfl | rfl <;> norm_num at hx h ⊢ <;>
      rw [h] <;> split <;> push_cast <;> omega

/-- Witness for C2 at width 5 and the field value `0b10000`. -/
theorem C2_sign_extend_twos_complement_witness :
    (5 = 5 ∨ 5 = 6 ∨ 5 = 9 ∨ 5 = 11) ∧ 0b10000 < 2 ^ 5 ∧
    ((Nat.testBit 0b10000 (5 - 1) = false → sign_extend 0b10000 5 = 0b10000) ∧
    (Nat.testBit 0b10000 (5 - 1) = true → sign_extend 0b10000 5 = 0b10000 + 2 ^ 16 - 2 ^ 5) ∧
    sign_extend 0b10000 5 < 2 ^ 16 ∧
    (sign_extend 0b10000 5 : Int) = signedValue 5 0b10000 % 2 ^ 16 ∧
    sign_extend 0b01111 5 = 0x000F ∧ sign_extend 0b10000 5 = 0xFFF0) :=
  ⟨by decide, by decide,
    C2_sign_extend_twos_complement 5 0b10000 (by decide) (by decide)⟩

/-- C3: for every address `a` and every BR word `w` the line is the address
prefix, one of the eight BR mnemonics, a space and the rendering of the
target `(a + 1 + s) mod 2^16`, where `s` is the signed value of the 9-bit
field `w & 0x1FF`; read back as a hexadecimal number the rendered field is
that target.  At `a = 0x3000` with offset field `0x1FE` the target is
`0x2FFF`. -/
theorem C3_br_target_wraps (a w : Nat) (ha : a < 65536) (hw : w < 65536)
    (hop : w >>> 12 = OP_BR) :
    (∃ mn field : String,
      mn ∈ ["BR", "BRp", "BRz", "BRzp", "BRn", "BRnp", "BRnz", "BRnzp"] ∧
      disassemble_instruction a w
        = "0x" ++ printf_04X a ++ ": " ++ mn ++ " " ++ field ++ "\n" ∧
      field = printf_alt06x
        (((a : Int) + 1 + signedValue 9 (w &&& 0x1FF)) % 65536).toNat ∧
      readHex field = (((a : Int) + 1 + signedValue 9 (w &&& 0x1FF)) % 65536).toNat) ∧
    (((0x3000 : Nat) : Int) + 1 + signedValue 9 0x1FE) % 65536 = 0x2FFF ∧
    disassemble_instruction 0x3000 0x01FE = "0x3000: BR 0x2fff\n" := by
  have hf : w &&& 0x1FF < 2 ^ 9 := by rw [and_1FF]; omega
  have ht := target_eq 9 (w &&& 0x1FF) a (Or.inl rfl) hf
  have hlt : (((a : Int) + 1 + signedValue 9 (w &&& 0x1FF)) % 65536).toNat < 65536 := by
    omega
  refine ⟨⟨_, _, br_mnemonic_mem ((w >>> 9) &&& 0x7), ?_, rfl,
    readHex_printf_alt06x _ hlt⟩, by decide, by decide⟩
  have he : (sign_extend (w &&& 0x1FF) 9 + a + 1) % 65536
      = (((a : Int) + 1 + signedValue 9 (w &&& 0x1FF)) % 65536).toNat := by
    rw [← ht, Nat.add_assoc, Nat.add_comm]
  rw [dis_BR a w hop, he]
  simp only [String.append_assoc]

/-- Witness for C3 at the top of the address space: address `0xFFFF`, a BR
word with offset 0, whose target wraps to `0x0000`. -/
theorem C3_br_target_wraps_witness :
    0xFFFF < 65536 ∧ 0x0000 < 65536 ∧ 0x0000 >>> 12 = OP_BR ∧
    ((∃ mn field : String,
      mn ∈ ["BR", "BRp", "BRz", "BRzp", "BRn", "BRnp", "BRnz", "BRnzp"] ∧
      disassemble_instruction 0xFFFF 0x0000
        = "0x" ++ printf_04X 0xFFFF ++ ": " ++ mn ++ " " ++ field ++ "\n" ∧
      field = printf_alt06x
        ((((0xFFFF : Nat) : Int) + 1 + signedValue 9 (0x0000 &&& 0x1FF)) % 65536).toNat ∧
      readHex field
        = ((((0xFFFF : Nat) : Int) + 1 + signedValue 9 (0x0000 &&& 0x1FF)) % 65536).toNat) ∧
    (((0x3000 : Nat) : Int) + 1 + signedValue 9 0x1FE) % 65536 = 0x2FFF ∧
    disassemble_instruction 0x3000 0x01FE = "0x3000: BR 0x2fff\n") ∧
    ((((0xFFFF : Nat) : Int) + 1 + signedValue 9 (0x0000 &&& 0x1FF)) % 65536).toNat = 0 :=
  ⟨by decide, by decide, by decide,
    C3_br_target_wraps 0xFFFF 0x0000 (by decide) (by decide) (by decide), by decide⟩

/-- C4 (failing input): at address `0xFFFF` a BR word with offset 0 has the
target `0x0000`, which `%#06x` renders as `000000`, without the `0x`
marker. -/
theorem C4_zero_target_rendering :
    disassemble_instruction 0xFFFF 0x0000 = "0xFFFF: BR 000000\n" ∧
    (sign_extend (0x0000 &&& 0x1FF) 9 + 0xFFFF + 1) % 65536 = 0 ∧
    printf_alt06x 0 = "000000" ∧
    disassemble_instruction 0x0000 0xA1FF = "0x0000: LDI R0, 000000\n" := by
  decide

/-- C5 (failing input): the ADD word `0x1070` has the imm5 field `0b10000`;
the sign-extended value `0xFFF0` reaches `%d` as a non-negative `int` and
is printed as `65520`. -/
theorem C5_negative_immediate_rendering :
    disassemble_instruction 0x3000 0x1070 = "0x3000: ADD R0, R1, #65520\n" ∧
    sign_extend (0x1070 &&& 0x1F) 5 = 0xFFF0 ∧
    signedValue 5 (0x1070 &&& 0x1F) = -16 ∧
    disassemble_instruction 0x3000 0x6FFF = "0x3000: LDR R7, R7, #65535\n" := by
  decide

/-- C6 (failing input): the TRAP words `0xF025` and `0xF020` carry the
vectors `0x25` and `0x20` and render the same line, whose operand is the
opcode number `0x0F`. -/
theorem C6_trap_operand_rendering :
    disassemble_instruction 0x3000 0xF025 = "0x3000: TRAP 0x0F\n" ∧
    disassemble_instruction 0x3000 0xF020 = "0x3000: TRAP 0x0F\n" ∧
    0xF025 &&& 0xFF = TRAP_HALT ∧ 0xF020 &&& 0xFF = TRAP_GETC := by
  decide

/-- C7 (failing input): the LD word `0x2201` at address `0x3000` has the
target `0x3002`; the line shows the register and no target. -/
theorem C7_ld_line_without_target :
    disassemble_instruction 0x3000 0x2201 = "0x3000: LD R1\n" ∧
    (0x3000 + 1 + sign_extend (0x2201 &&& 0x1FF) 9) % 65536 = 0x3002 ∧
    disassemble_instruction 0x3000 0xA201 = "0x3000: LDI R1, 0x3002\n" := by
  decide

/-- C8 (failing input): the JMP word `0xC0C0` names register 3 and the line
shows it with a lower-case `r`. -/
theorem C8_jmp_register_lower_case :
    disassemble_instruction 0x3000 0xC0C0 = "0x3000: JMP r3\n" ∧
    disassemble_instruction 0x3000 0x40C0 = "0x3000: JSRR R3\n" := by
  decide

/-- C9: for every address `a` and every JMP word `w`, if bits 8-6 of `w` are
7 the line is the address prefix and `RET`; otherwise it is the address
prefix and `JMP r` followed by the decimal digit of bits 8-6.  Two JMP words
with the same bits 8-6 give the same line: bits 11-9 and 5-0 play no
part. -/
theorem C9_jmp_ret_alias (a w : Nat) (ha : a < 65536) (hw : w < 65536)
    (hop : w >>> 12 = OP_JMP) :
    (w / 64 % 8 = 7 →
      disassemble_instruction a w = "0x" ++ printf_04X a ++ ": " ++ "RET" ++ "\n") ∧
    (w / 64 % 8 ≠ 7 →
      disassemble_instruction a w
        = "0x" ++ printf_04X a ++ ": " ++ "JMP r"
            ++ String.mk [Char.ofNat (48 + w / 64 % 8)] ++ "\n") ∧
    (∀ w2 : Nat, w2 < 65536 → w2 >>> 12 = OP_JMP → w2 / 64 % 8 = w / 64 % 8 →
      disassemble_instruction a w2 = disassemble_instruction a w) := by
  have hr : ∀ v : Nat, (v >>> 6) &&& 0x7 = v / 64 % 8 := by
    intro v; rw [and_7, shr_eq]; norm_num
  have key : ∀ v : Nat, v >>> 12 = OP_JMP →
      disassemble_instruction a v =
        if v / 64 % 8 ≠ 7 then
          "0x" ++ printf_04X a ++ ": " ++ "JMP r"
            ++ String.mk [Char.ofNat (48 + v / 64 % 8)] ++ "\n"
        else "0x" ++ printf_04X a ++ ": " ++ "RET\n" := by
    intro v hv
    rw [dis_JMP a v hv, hr v, printf_d_digit (v / 64 % 8) (by omega)]
  refine ⟨?_, ?_, ?_⟩
  · intro h7
    rw [key w hop, if_neg (by simp [h7])]
    simp only [String.append_assoc]; rfl
  · intro h7
    rw [key w hop, if_pos h7]
  · intro w2 _ hop2 he
    rw [key w hop, key w2 hop2, he]

/-- Witness for C9 at address `0x3000` and the JMP word `0xC1C0`, whose bits
8-6 are 7. -/
theorem C9_jmp_ret_alias_witness :
    0x3000 < 65536 ∧ 0xC1C0 < 65536 ∧ 0xC1C0 >>> 12 = OP_JMP ∧
    ((0xC1C0 / 64 % 8 = 7 →
      disassemble_instruction 0x3000 0xC1C0
        = "0x" ++ printf_04X 0x3000 ++ ": " ++ "RET" ++ "\n") ∧
    (0xC1C0 / 64 % 8 ≠ 7 →
      disassemble_instruction 0x3000 0xC1C0
        = "0x" ++ printf_04X 0x3000 ++ ": " ++ "JMP r"
            ++ String.mk [Char.ofNat (48 + 0xC1C0 / 64 % 8)] ++ "\n") ∧
    (∀ w2 : Nat, w2 < 65536 → w2 >>> 12 = OP_JMP → w2 / 64 % 8 = 0xC1C0 / 64 % 8 →
      disassemble_instruction 0x3000 w2 = disassemble_instruction 0x3000 0xC1C0)) ∧
    disassemble_instruction 0x3000 0xC1C0 = "0x3000: RET\n" ∧
    disassemble_instruction 0x3000 0xCE3F = "0x3000: JMP r0\n" :=
  ⟨by decide, by decide, by decide,
    C9_jmp_ret_alias 0x3000 0xC1C0 (by decide) (by decide) (by decide),
    by decide, by decide⟩

/-- C10: for every address `a` and every JSR word `w`, if bit 11 is set the
line is the address prefix, `JSR ` and the rendering of the target
`(a + 1 + s) mod 2^16`, `s` being the signed value of the 11-bit field
`w & 0x7FF`; if bit 11 is clear the line is the address prefix and `JSRR R`
followed by the decimal digit of bits 8-6 of `w`, the same text after the
prefix at every address. -/
theorem C10_jsr_forms (a w : Nat) (ha : a < 65536) (hw : w < 65536)
    (hop : w >>> 12 = OP_JSR) :
    (Nat.testBit w 11 = true →
      ∃ field : String,
        disassemble_instruction a w
          = "0x" ++ printf_04X a ++ ": " ++ "JSR " ++ field ++ "\n" ∧
        field = printf_alt06x
          (((a : Int) + 1 + signedValue 11 (w &&& 0x7FF)) % 65536).toNat ∧
        readHex field = (((a : Int) + 1 + signedValue 11 (w &&& 0x7FF)) % 65536).toNat) ∧
    (Nat.testBit w 11 = false →
      ∀ a2 : Nat, a2 < 65536 →
        disassemble_instruction a2 w
          = "0x" ++ printf_04X a2 ++ ": " ++ "JSRR R"
              ++ String.mk [Char.ofNat (48 + w / 64 % 8)] ++ "\n") := by
  have hb : Nat.testBit w 11 = decide (w / 2 ^ 11 % 2 = 1) := Nat.testBit_to_div_mod
  have hl : (w >>> 11) &&& 1 = w / 2 ^ 11 % 2 := by rw [and_1, shr_eq]
  have hr : (w >>> 6) &&& 0x7 = w / 64 % 8 := by rw [and_7, shr_eq]; norm_num
  refine ⟨?_, ?_⟩
  · intro h11
    rw [hb] at h11
    have h1 : w / 2 ^ 11 % 2 = 1 := of_decide_eq_true h11
    have hf : w &&& 0x7FF < 2 ^ 11 := by rw [and_7FF]; omega
    have ht := target_eq 11 (w &&& 0x7FF) a (Or.inr rfl) hf
    have hlt :
        (((a : Int) + 1 + signedValue 11 (w &&& 0x7FF)) % 65536).toNat < 65536 := by
      omega
    refine ⟨_, ?_, rfl, readHex_printf_alt06x _ hlt⟩
    rw [dis_JSR a w hop, if_pos (by rw [hl, h1]; decide), ht]
  · intro h11 a2 _
    rw [hb] at h11
    have h1 : ¬ (w / 2 ^ 11 % 2 = 1) := of_decide_eq_false h11
    rw [dis_JSR a2 w hop, if_neg (by rw [hl]; omega), hr,
      printf_d_digit (w / 64 % 8) (by omega)]

/-- Witness for C10 at address `0x3000` and the JSR word `0x4FFF`, whose
11-bit offset field is -1. -/
theorem C10_jsr_forms_witness :
    0x3000 < 65536 ∧ 0x4FFF < 65536 ∧ 0x4FFF >>> 12 = OP_JSR ∧
    ((Nat.testBit 0x4FFF 11 = true →
      ∃ field : String,
        disassemble_instruction 0x3000 0x4FFF
          = "0x" ++ printf_04X 0x3000 ++ ": " ++ "JSR " ++ field ++ "\n" ∧
        field = printf_alt06x
          ((((0x3000 : Nat) : Int) + 1 + signedValue 11 (0x4FFF &&& 0x7FF)) % 65536).toNat ∧
        readHex field
          = ((((0x3000 : Nat) : Int) + 1 + signedValue 11 (0x4FFF &&& 0x7FF)) % 65536).toNat) ∧
    (Nat.testBit 0x4FFF 11 = false →
      ∀ a2 : Nat, a2 < 65536 →
        disassemble_instruction a2 0x4FFF
          = "0x" ++ printf_04X a2 ++ ": " ++ "JSRR R"
              ++ String.mk [Char.ofNat (48 + 0x4FFF / 64 % 8)] ++ "\n")) ∧
    Nat.testBit 0x4FFF 11 = true ∧
    disassemble_instruction 0x3000 0x4FFF = "0x3000: JSR 0x3000\n" ∧
    disassemble_instruction 0x3000 0x40C0 = "0x3000: JSRR R3\n" :=
  ⟨by decide, by decide, by decide,
    C10_jsr_forms 0x3000 0x4FFF (by decide) (by decide) (by decide),
    by decide, by decide, by decide⟩

/-! ## Lemmas on register and flag fields -/

theorem reg_11_9 (w : Nat) : (w >>> 9) &&& 0x7 = w / 512 % 8 := by
  rw [and_7, shr_eq]; norm_num

theorem reg_8_6 (w : Nat) : (w >>> 6) &&& 0x7 = w / 64 % 8 := by
  rw [and_7, shr_eq]; norm_num

theorem reg_2_0 (w : Nat) : w &&& 0x7 = w % 8 := and_7 w

theorem flag_5 (w : Nat) : (w >>> 5) &&& 0x1 = w / 32 % 2 := by
  rw [and_1, shr_eq]; norm_num

/-- Bit `i` of `w` in arithmetic form. -/
theorem testBit_arith (w i : Nat) : Nat.testBit w i = decide (w / 2 ^ i % 2 = 1) :=
  Nat.testBit_to_div_mod

/-- A register number printed with `%d` is one decimal digit. -/
theorem printf_d_reg (r : Nat) (hr : r < 8) :
    printf_d (Int.ofNat r) = String.mk [Char.ofNat (48 + r)] :=
  printf_d_digit r (by omega)

/-- Below sixteen, `%d` prints the usual decimal numeral. -/
theorem printf_d_lt_16 (n : Nat) (hn : n < 16) : printf_d (Int.ofNat n) = Nat.repr n := by
  interval_cases n <;> decide

/-- C11: for every address `a` and every ADD or AND word `w`, with `op` the
mnemonic of its class: if bit 5 is clear the line is the address prefix and
`<op> R<bits 11-9>, R<bits 8-6>, R<bits 2-0>`; if bit 5 is set and bit 4 is
clear it is the address prefix and `<op> R<bits 11-9>, R<bits 8-6>,
#<bits 3-0 in decimal>`.  Word `0x1066` at address `0x3000` gives
`0x3000: ADD R0, R1, #6`. -/
theorem C11_add_and_forms (a w : Nat) (op : String) (ha : a < 65536) (hw : w < 65536)
    (hop : (w >>> 12 = OP_ADD ∧ op = "ADD") ∨ (w >>> 12 = OP_AND ∧ op = "AND")) :
    (Nat.testBit w 5 = false →
      disassemble_instruction a w
        = "0x" ++ printf_04X a ++ ": " ++ op ++ " R"
            ++ String.mk [Char.ofNat (48 + w / 512 % 8)] ++ ", R"
            ++ String.mk [Char.ofNat (48 + w / 64 % 8)] ++ ", R"
            ++ String.mk [Char.ofNat (48 + w % 8)] ++ "\n") ∧
    (Nat.testBit w 5 = true → Nat.testBit w 4 = false →
      disassemble_instruction a w
        = "0x" ++ printf_04X a ++ ": " ++ op ++ " R"
            ++ String.mk [Char.ofNat (48 + w / 512 % 8)] ++ ", R"
            ++ String.mk [Char.ofNat (48 + w / 64 % 8)] ++ ", #"
            ++ Nat.repr (w % 16) ++ "\n") ∧
    disassemble_instruction 0x3000 0x1066 = "0x3000: ADD R0, R1, #6\n" := by
  have r0 := printf_d_reg (w / 512 % 8) (by omega)
  have r1 := printf_d_reg (w / 64 % 8) (by omega)
  have r2 := printf_d_reg (w % 8) (by omega)
  have e1 : "ADD" ++ " R" = "ADD R" := by decide
  have e2 : "AND" ++ " R" = "AND R" := by decide
  refine ⟨?_, ?_, by decide⟩
  · intro h5
    rw [testBit_arith] at h5
    have h5' : ¬ (w / 2 ^ 5 % 2 = 1) := of_decide_eq_false h5
    have hf : ¬ ((w >>> 5) &&& 0x1 ≠ 0) := by rw [flag_5]; omega
    rcases hop with ⟨hop, rfl⟩ | ⟨hop, rfl⟩
    · rw [dis_ADD a w hop, if_neg hf, reg_11_9, reg_8_6, reg_2_0, r0, r1, r2,
        String.append_assoc _ "ADD" " R", e1]
    · rw [dis_AND a w hop, if_neg hf, reg_11_9, reg_8_6, reg_2_0, r0, r1, r2,
        String.append_assoc _ "AND" " R", e2]
  · intro h5 h4
    rw [testBit_arith] at h5 h4
    have h5' : w / 2 ^ 5 % 2 = 1 := of_decide_eq_true h5
    have h4' : ¬ (w / 2 ^ 4 % 2 = 1) := of_decide_eq_false h4
    have hf : (w >>> 5) &&& 0x1 ≠ 0 := by rw [flag_5]; omega
    have hlt : w &&& 0x1F < 2 ^ 5 := by rw [and_1F]; omega
    have hs : sign_extend (w &&& 0x1F) 5 = w % 16 := by
      rw [sign_extend_arith 5 _ (Or.inl rfl) hlt, and_1F]
      have : w % 32 < 2 ^ (5 - 1) := by norm_num; omega
      rw [if_pos this]; omega
    have hd := printf_d_lt_16 (w % 16) (by omega)
    rcases hop with ⟨hop, rfl⟩ | ⟨hop, rfl⟩
    · rw [dis_ADD a w hop, if_pos hf, reg_11_9, reg_8_6, hs, r0, r1, hd,
        String.append_assoc _ "ADD" " R", e1]
    · rw [dis_AND a w hop, if_pos hf, reg_11_9, reg_8_6, hs, r0, r1, hd,
        String.append_assoc _ "AND" " R", e2]

/-- Witness for C11 at address `0x3000` and the ADD word `0x1066`. -/
theorem C11_add_and_forms_witness :
    0x3000 < 65536 ∧ 0x1066 < 65536 ∧
    ((0x1066 >>> 12 = OP_ADD ∧ "ADD" = "ADD") ∨ (0x1066 >>> 12 = OP_AND ∧ "ADD" = "AND")) ∧
    ((Nat.testBit 0x1066 5 = false →
      disassemble_instruction 0x3000 0x1066
        = "0x" ++ printf_04X 0x3000 ++ ": " ++ "ADD" ++ " R"
            ++ String.mk [Char.ofNat (48 + 0x1066 / 512 % 8)] ++ ", R"
            ++ String.mk [Char.ofNat (48 + 0x1066 / 64 % 8)] ++ ", R"
            ++ String.mk [Char.ofNat (48 + 0x1066 % 8)] ++ "\n") ∧
    (Nat.testBit 0x1066 5 = true → Nat.testBit 0x1066 4 = false →
      disassemble_instruction 0x3000 0x1066
        = "0x" ++ printf_04X 0x3000 ++ ": " ++ "ADD" ++ " R"
            ++ String.mk [Char.ofNat (48 + 0x1066 / 512 % 8)] ++ ", R"
            ++ String.mk [Char.ofNat (48 + 0x1066 / 64 % 8)] ++ ", #"
            ++ Nat.repr (0x1066 % 16) ++ "\n") ∧
    disassemble_instruction 0x3000 0x1066 = "0x3000: ADD R0, R1, #6\n") ∧
    Nat.testBit 0x1066 5 = true ∧ Nat.testBit 0x1066 4 = false ∧
    disassemble_instruction 0x3000 0x5A83 = "0x3000: AND R5, R2, R3\n" :=
  ⟨by decide, by decide, by decide,
    C11_add_and_forms 0x3000 0x1066 "ADD" (by decide) (by decide) (by decide),
    by decide, by decide, by decide⟩

/-- The three tests on `cond_flag` are tests of bits 11, 10 and 9 of the
word. -/
theorem cond_flag_bits (w : Nat) :
    ((((w >>> 9) &&& 0x7) &&& 0x4 ≠ 0) ↔ Nat.testBit w 11 = true) ∧
    ((((w >>> 9) &&& 0x7) &&& 0x2 ≠ 0) ↔ Nat.testBit w 10 = true) ∧
    ((((w >>> 9) &&& 0x7) &&& 0x1 ≠ 0) ↔ Nat.testBit w 9 = true) := by
  have hc : w / 512 % 8 < 8 := by omega
  have key : ∀ c : Nat, c < 8 →
      ((c &&& 0x4 ≠ 0) ↔ c / 4 % 2 = 1) ∧ ((c &&& 0x2 ≠ 0) ↔ c / 2 % 2 = 1) ∧
      ((c &&& 0x1 ≠ 0) ↔ c % 2 = 1) := by
    intro c hc; interval_cases c <;> decide
  obtain ⟨k1, k2, k3⟩ := key (w / 512 % 8) hc
  rw [reg_11_9, testBit_arith, testBit_arith, testBit_arith, decide_eq_true_iff,
    decide_eq_true_iff, decide_eq_true_iff, k1, k2, k3]
  norm_num
  refine ⟨?_, ?_, ?_⟩ <;> omega

/-- C12: for every address and every BR word `w` the mnemonic is `BR`
followed by `n` when bit 11 is set, then `z` when bit 10 is set, then `p`
when bit 9 is set, and by nothing else; it is the entry numbered by bits
11-9 in the list BR, BRp, BRz, BRzp, BRn, BRnp, BRnz, BRnzp of eight
distinct mnemonics, and a space and the target follow it on the line. -/
theorem C12_br_condition_suffix (a w : Nat) (ha : a < 65536) (hw : w < 65536)
    (hop : w >>> 12 = OP_BR) :
    (∃ field : String,
      disassemble_instruction a w
        = "0x" ++ printf_04X a ++ ": "
            ++ ("BR" ++ (if Nat.testBit w 11 = true then "n" else "")
                  ++ (if Nat.testBit w 10 = true then "z" else "")
                  ++ (if Nat.testBit w 9 = true then "p" else ""))
            ++ " " ++ field ++ "\n" ∧
      field = printf_alt06x ((sign_extend (w &&& 0x1FF) 9 + a + 1) % 65536)) ∧
    "BR" ++ (if Nat.testBit w 11 = true then "n" else "")
        ++ (if Nat.testBit w 10 = true then "z" else "")
        ++ (if Nat.testBit w 9 = true then "p" else "")
      = ["BR", "BRp", "BRz", "BRzp", "BRn", "BRnp", "BRnz", "BRnzp"].getD (w / 512 % 8) "" ∧
    List.Nodup ["BR", "BRp", "BRz", "BRzp", "BRn", "BRnp", "BRnz", "BRnzp"] := by
  obtain ⟨k1, k2, k3⟩ := cond_flag_bits w
  refine ⟨⟨_, ?_, rfl⟩, ?_, by decide⟩
  · rw [dis_BR a w hop]
    simp only [k1, k2, k3, String.append_assoc]
  · have t11 : (Nat.testBit w 11 = true) ↔ (w / 512 % 8) / 4 % 2 = 1 := by
      rw [testBit_arith, decide_eq_true_iff]; norm_num; omega
    have t10 : (Nat.testBit w 10 = true) ↔ (w / 512 % 8) / 2 % 2 = 1 := by
      rw [testBit_arith, decide_eq_true_iff]; norm_num; omega
    have t9 : (Nat.testBit w 9 = true) ↔ (w / 512 % 8) % 2 = 1 := by
      rw [testBit_arith, decide_eq_true_iff]; omega
    have key : ∀ c : Nat, c < 8 →
        "BR" ++ (if c / 4 % 2 = 1 then "n" else "") ++ (if c / 2 % 2 = 1 then "z" else "")
            ++ (if c % 2 = 1 then "p" else "")
          = ["BR", "BRp", "BRz", "BRzp", "BRn", "BRnp", "BRnz", "BRnzp"].getD c "" := by
      intro c hc; interval_cases c <;> decide
    simp only [t11, t10, t9]
    exact key _ (by omega)

/-- Witness for C12 at address `0x3000` and the BR word `0x0A05`, whose
condition bits are `n` and `p`. -/
theorem C12_br_condition_suffix_witness :
    0x3000 < 65536 ∧ 0x0A05 < 65536 ∧ 0x0A05 >>> 12 = OP_BR ∧
    ((∃ field : String,
      disassemble_instruction 0x3000 0x0A05
        = "0x" ++ printf_04X 0x3000 ++ ": "
            ++ ("BR" ++ (if Nat.testBit 0x0A05 11 = true then "n" else "")
                  ++ (if Nat.testBit 0x0A05 10 = true then "z" else "")
                  ++ (if Nat.testBit 0x0A05 9 = true then "p" else ""))
            ++ " " ++ field ++ "\n" ∧
      field = printf_alt06x ((sign_extend (0x0A05 &&& 0x1FF) 9 + 0x3000 + 1) % 65536)) ∧
    "BR" ++ (if Nat.testBit 0x0A05 11 = true then "n" else "")
        ++ (if Nat.testBit 0x0A05 10 = true then "z" else "")
        ++ (if Nat.testBit 0x0A05 9 = true then "p" else "")
      = ["BR", "BRp", "BRz", "BRzp", "BRn", "BRnp", "BRnz", "BRnzp"].getD
          (0x0A05 / 512 % 8) "" ∧
    List.Nodup ["BR", "BRp", "BRz", "BRzp", "BRn", "BRnp", "BRnz", "BRnzp"]) ∧
    disassemble_instruction 0x3000 0x0A05 = "0x3000: BRnp 0x3006\n" ∧
    disassemble_instruction 0x3000 0x0005 = "0x3000: BR 0x3006\n" :=
  ⟨by decide, by decide, by decide,
    C12_br_condition_suffix 0x3000 0x0A05 (by decide) (by decide) (by decide),
    by decide, by decide⟩

/-! ## Lemmas on the class of a line -/

/-- The address prefix has exactly four digit characters. -/
theorem printf_04X_chars (a : Nat) (ha : a < 65536) :
    ∃ c1 c2 c3 c4 : Char, printf_04X a = String.mk [c1, c2, c3, c4] :=
  ⟨_, _, _, _, by rw [printf_04X, zeroPad4_hex true a ha]⟩

/-- The class read back from a line is the opcode of the word printed. -/
theorem classOfLine_disassemble (a w : Nat) (ha : a < 65536) (hw : w < 65536) :
    classOfLine (disassemble_instruction a w) = w >>> 12 := by
  have hlt := op_lt_16 w hw
  obtain ⟨c1, c2, c3, c4, hx⟩ := printf_04X_chars a ha
  obtain ⟨op, hop⟩ : ∃ op, w >>> 12 = op := ⟨_, rfl⟩
  rw [hop] at hlt
  interval_cases op
  · rw [dis_BR a w hop, hop]
    simp [classOfLine, hx, OP_BR, OP_ADD, OP_LD, OP_ST, OP_JSR, OP_AND, OP_LDR, OP_STR, OP_RTI,
      OP_NOT, OP_LDI, OP_STI, OP_JMP, OP_RES, OP_LEA, OP_TRAP]
  · rw [dis_ADD a w hop, hop]
    split <;> simp [classOfLine, hx, OP_BR, OP_ADD, OP_LD, OP_ST, OP_JSR, OP_AND, OP_LDR, OP_STR, OP_RTI,
      OP_NOT, OP_LDI, OP_STI, OP_JMP, OP_RES, OP_LEA, OP_TRAP]
  · rw [dis_LD a w hop, hop]
    simp [classOfLine, hx, OP_BR, OP_ADD, OP_LD, OP_ST, OP_JSR, OP_AND, OP_LDR, OP_STR, OP_RTI,
      OP_NOT, OP_LDI, OP_STI, OP_JMP, OP_RES, OP_LEA, OP_TRAP]
  · rw [dis_ST a w hop, hop]
    simp [classOfLine, hx, OP_BR, OP_ADD, OP_LD, OP_ST, OP_JSR, OP_AND, OP_LDR, OP_STR, OP_RTI,
      OP_NOT, OP_LDI, OP_STI, OP_JMP, OP_RES, OP_LEA, OP_TRAP]
  · rw [dis_JSR a w hop, hop]
    split <;> simp [classOfLine, hx, OP_BR, OP_ADD, OP_LD, OP_ST, OP_JSR, OP_AND, OP_LDR, OP_STR, OP_RTI,
      OP_NOT, OP_LDI, OP_STI, OP_JMP, OP_RES, OP_LEA, OP_TRAP]
  · rw [dis_AND a w hop, hop]
    split <;> simp [classOfLine, hx, OP_BR, OP_ADD, OP_LD, OP_ST, OP_JSR, OP_AND, OP_LDR, OP_STR, OP_RTI,
      OP_NOT, OP_LDI, OP_STI, OP_JMP, OP_RES, OP_LEA, OP_TRAP]
  · rw [dis_LDR a w hop, hop]
    simp [classOfLine, hx, OP_BR, OP_ADD, OP_LD, OP_ST, OP_JSR, OP_AND, OP_LDR, OP_STR, OP_RTI,
      OP_NOT, OP_LDI, OP_STI, OP_JMP, OP_RES, OP_LEA, OP_TRAP]
  · rw [dis_STR a w hop, hop]
    simp [classOfLine, hx, OP_BR, OP_ADD, OP_LD, OP_ST, OP_JSR, OP_AND, OP_LDR, OP_STR, OP_RTI,
      OP_NOT, OP_LDI, OP_STI, OP_JMP, OP_RES, OP_LEA, OP_TRAP]
  · rw [dis_RTI a w hop, hop]
    simp [classOfLine, hx, OP_BR, OP_ADD, OP_LD, OP_ST, OP_JSR, OP_AND, OP_LDR, OP_STR, OP_RTI,
      OP_NOT, OP_LDI, OP_STI, OP_JMP, OP_RES, OP_LEA, OP_TRAP]
  · rw [dis_NOT a w hop, hop]
    simp [classOfLine, hx, OP_BR, OP_ADD, OP_LD, OP_ST, OP_JSR, OP_AND, OP_LDR, OP_STR, OP_RTI,
      OP_NOT, OP_LDI, OP_STI, OP_JMP, OP_RES, OP_LEA, OP_TRAP]
  · rw [dis_LDI a w hop, hop]
    simp [classOfLine, hx, OP_BR, OP_ADD, OP_LD, OP_ST, OP_JSR, OP_AND, OP_LDR, OP_STR, OP_RTI,
      OP_NOT, OP_LDI, OP_STI, OP_JMP, OP_RES, OP_LEA, OP_TRAP]
  · rw [dis_STI a w hop, hop]
    simp [classOfLine, hx, OP_BR, OP_ADD, OP_LD, OP_ST, OP_JSR, OP_AND, OP_LDR, OP_STR, OP_RTI,
      OP_NOT, OP_LDI, OP_STI, OP_JMP, OP_RES, OP_LEA, OP_TRAP]
  · rw [dis_JMP a w hop, hop]
    split <;> simp [classOfLine, hx, OP_BR, OP_ADD, OP_LD, OP_ST, OP_JSR, OP_AND, OP_LDR, OP_STR, OP_RTI,
      OP_NOT, OP_LDI, OP_STI, OP_JMP, OP_RES, OP_LEA, OP_TRAP]
  · rw [dis_RES a w hop, hop]
    simp [classOfLine, hx, OP_BR, OP_ADD, OP_LD, OP_ST, OP_JSR, OP_AND, OP_LDR, OP_STR, OP_RTI,
      OP_NOT, OP_LDI, OP_STI, OP_JMP, OP_RES, OP_LEA, OP_TRAP]
  · rw [dis_LEA a w hop, hop]
    simp [classOfLine, hx, OP_BR, OP_ADD, OP_LD, OP_ST, OP_JSR, OP_AND, OP_LDR, OP_STR, OP_RTI,
      OP_NOT, OP_LDI, OP_STI, OP_JMP, OP_RES, OP_LEA, OP_TRAP]
  · rw [dis_TRAP a w hop, hop]
    simp [classOfLine, hx, OP_BR, OP_ADD, OP_LD, OP_ST, OP_JSR, OP_AND, OP_LDR, OP_STR, OP_RTI,
      OP_NOT, OP_LDI, OP_STI, OP_JMP, OP_RES, OP_LEA, OP_TRAP]

/-- C13: two words of different opcode classes never render the same text,
at whatever addresses they stand. -/
theorem C13_classes_render_distinct (a1 a2 w1 w2 : Nat)
    (ha1 : a1 < 65536) (ha2 : a2 < 65536) (hw1 : w1 < 65536) (hw2 : w2 < 65536)
    (hne : w1 >>> 12 ≠ w2 >>> 12) :
    disassemble_instruction a1 w1 ≠ disassemble_instruction a2 w2 := by
  intro h
  apply hne
  rw [← classOfLine_disassemble a1 w1 ha1 hw1, h, classOfLine_disassemble a2 w2 ha2 hw2]

/-- Witness for C13 with an LD word and an LDR word at the same address. -/
theorem C13_classes_render_distinct_witness :
    0x3000 < 65536 ∧ 0x3000 < 65536 ∧ 0x2201 < 65536 ∧ 0x6201 < 65536 ∧
    0x2201 >>> 12 ≠ 0x6201 >>> 12 ∧
    disassemble_instruction 0x3000 0x2201 ≠ disassemble_instruction 0x3000 0x6201 ∧
    disassemble_instruction 0x3000 0x2201 = "0x3000: LD R1\n" ∧
    disassemble_instruction 0x3000 0x6201 = "0x3000: LDR R1, R0, #1\n" :=
  ⟨by decide, by decide, by decide, by decide, by decide,
    C13_classes_render_distinct 0x3000 0x3000 0x2201 0x6201 (by decide) (by decide)
      (by decide) (by decide) (by decide),
    by decide, by decide⟩

/-! ## Lemmas on the loader -/

/-- On a 16-bit value `swap16` exchanges the two bytes. -/
theorem swap16_bytes (x : Nat) (hx : x < 65536) : swap16 x = 256 * (x % 256) + x / 256 := by
  have h1 : x / 256 < 2 ^ 8 := by norm_num; omega
  have h2 : (x <<< 8) ||| (x >>> 8) = 2 ^ 8 * x + x / 256 := by
    rw [Nat.shiftLeft_eq, shr_eq, Nat.mul_comm x, Nat.mul_add_lt_is_or h1]
    norm_num
  rw [swap16, h2]
  omega

/-- A word read on the host from the file bytes `b0 b1` and swapped is the
big-endian value of the two bytes. -/
theorem swap16_host_u16 (b0 b1 : Nat) (h0 : b0 < 256) (h1 : b1 < 256) :
    swap16 (host_u16 b0 b1) = 256 * b0 + b1 := by
  rw [swap16_bytes _ (by unfold host_u16; omega)]
  unfold host_u16
  omega

/-- The number of items `fread` reports: what is asked for, or the complete
words the file still holds. -/
theorem fread_u16_count (count : Nat) :
    ∀ (bytes : List Nat) (mem : Nat → Nat) (p : Nat),
      (fread_u16 mem p count bytes).2 = min count (bytes.length / 2) := by
  induction count with
  | zero => intro bytes mem p; simp [fread_u16]
  | succ c ih =>
    intro bytes mem p
    match bytes with
    | [] => simp [fread_u16]
    | [b] => simp [fread_u16]
    | b0 :: b1 :: rest =>
      simp only [fread_u16, ih, List.length_cons]
      omega

/-- The memory `fread` leaves: the items read stand at `p`, `p + 1`, ...; a
byte left over while an item is still asked for is the low byte of the next
cell; every other cell is unchanged. -/
theorem fread_u16_mem (count : Nat) :
    ∀ (bytes : List Nat) (mem : Nat → Nat) (p j : Nat),
      (fread_u16 mem p count bytes).1 j =
        if p ≤ j ∧ j < p + min count (bytes.length / 2) then
          host_u16 (bytes.getD (2 * (j - p)) 0) (bytes.getD (2 * (j - p) + 1) 0)
        else if j = p + min count (bytes.length / 2) ∧ min count (bytes.length / 2) < count
            ∧ bytes.length % 2 = 1 then
          host_u16 (bytes.getD (2 * min count (bytes.length / 2)) 0) (mem j / 256)
        else mem j := by
  induction count with
  | zero =>
    intro bytes mem p j
    simp only [fread_u16]
    rw [if_neg (by omega), if_neg (by omega)]
  | succ c ih =>
    intro bytes mem p j
    match bytes with
    | [] =>
      simp only [fread_u16, List.length_nil]
      rw [if_neg (by omega), if_neg (by omega)]
    | [b] =>
      simp only [fread_u16, List.length_cons, List.length_nil]
      by_cases hj : j = p
      · subst hj
        rw [if_pos rfl, if_neg (by omega), if_pos ⟨by omega, by omega, trivial⟩]
        simp
      · rw [if_neg hj, if_neg (by omega), if_neg (by omega)]
    | b0 :: b1 :: rest =>
      simp only [fread_u16, ih, List.length_cons]
      by_cases hj : j = p
      · subst hj
        rw [if_neg (by omega), if_neg (by omega), if_pos rfl, if_pos (by omega)]
        simp
      · by_cases hr : p + 1 ≤ j ∧ j < p + 1 + min c (rest.length / 2)
        · obtain ⟨d, rfl⟩ : ∃ d, j = p + 1 + d := ⟨j - (p + 1), by omega⟩
          rw [if_pos hr, if_pos (by omega)]
          have e1 : p + 1 + d - (p + 1) = d := by omega
          have e3 : 2 * (p + 1 + d - p) = 2 * d + 1 + 1 := by omega
          rw [e1, e3]
          simp [List.getD_cons_succ]
        · rw [if_neg hr, if_neg hj]
          by_cases hp : j = p + 1 + min c (rest.length / 2) ∧ min c (rest.length / 2) < c
              ∧ rest.length % 2 = 1
          · rw [if_pos hp, if_neg (by omega), if_pos (by omega)]
            have e : 2 * min (c + 1) ((rest.length + 1 + 1) / 2)
                = 2 * min c (rest.length / 2) + 1 + 1 := by omega
            rw [e]
            simp [List.getD_cons_succ]
          · rw [if_neg hp, if_neg (by omega), if_neg (by omega)]

/-- The loop that swaps the words read: cells `origin` .. `origin + n - 1`
are swapped once, every other cell is unchanged. -/
theorem swap_loop_mem (origin : Nat) (n : Nat) :
    ∀ (mem : Nat → Nat) (j : Nat),
      (List.range n).foldl
          (fun m i => fun j => if j = origin + i then swap16 (m (origin + i)) else m j) mem j
        = if origin ≤ j ∧ j < origin + n then swap16 (mem j) else mem j := by
  induction n with
  | zero =>
    intro mem j
    rw [List.range_zero, List.foldl_nil, if_neg (by omega)]
  | succ k ih =>
    intro mem j
    rw [List.range_succ, List.foldl_append, List.foldl_cons, List.foldl_nil]
    by_cases hj : j = origin + k
    · subst hj
      rw [if_pos rfl, ih, if_neg (by omega), if_pos (by omega)]
    · rw [if_neg hj, ih]
      by_cases hr : origin ≤ j ∧ j < origin + k
      · rw [if_pos hr, if_pos (by omega)]
      · rw [if_neg hr, if_neg (by omega)]

theorem MEMORY_MAX_eq : MEMORY_MAX = 65536 := by decide

theorem swap16_lt (x : Nat) : swap16 x < 65536 := by
  unfold swap16; omega

/-- What the loading steps leave for a file that holds an origin: the
origin, the number of words read and every cell of the memory. -/
theorem load_into_cons_cons (mem0 : Nat → Nat) (b0 b1 : Nat) (rest : List Nat)
    (uninit : Nat) :
    (load_into mem0 (b0 :: b1 :: rest) uninit).2.1 = swap16 (host_u16 b0 b1) ∧
    (load_into mem0 (b0 :: b1 :: rest) uninit).2.2
      = min (65536 - swap16 (host_u16 b0 b1)) (rest.length / 2) ∧
    (∀ j : Nat, (load_into mem0 (b0 :: b1 :: rest) uninit).1 j =
      if swap16 (host_u16 b0 b1) ≤ j ∧
          j < swap16 (host_u16 b0 b1)
                + min (65536 - swap16 (host_u16 b0 b1)) (rest.length / 2) then
        swap16 (host_u16 (rest.getD (2 * (j - swap16 (host_u16 b0 b1))) 0)
          (rest.getD (2 * (j - swap16 (host_u16 b0 b1)) + 1) 0))
      else if j = swap16 (host_u16 b0 b1)
                + min (65536 - swap16 (host_u16 b0 b1)) (rest.length / 2)
          ∧ min (65536 - swap16 (host_u16 b0 b1)) (rest.length / 2)
              < 65536 - swap16 (host_u16 b0 b1)
          ∧ rest.length % 2 = 1 then
        host_u16 (rest.getD (2 * min (65536 - swap16 (host_u16 b0 b1)) (rest.length / 2)) 0)
          (mem0 j / 256)
      else mem0 j) := by
  have ho : (load_into mem0 (b0 :: b1 :: rest) uninit).2.1 = swap16 (host_u16 b0 b1) := by
    simp [load_into, fread_u16]
  refine ⟨ho, ?_, ?_⟩
  · simp [load_into, fread_u16, fread_u16_count, MEMORY_MAX_eq]
  · intro j
    have hu : (fread_u16 (fun _ => uninit) 0 1 (b0 :: b1 :: rest)).1 0 = host_u16 b0 b1 := by
      simp [fread_u16]
    simp only [load_into, hu, List.drop_succ_cons, List.drop_zero, fread_u16_count,
      MEMORY_MAX_eq, swap_loop_mem, fread_u16_mem]
    split
    · rfl
    · rfl

/-- The same for the loading steps as `main` runs them. -/
theorem load_cons_cons (b0 b1 : Nat) (rest : List Nat) (uninit : Nat) :
    (load (b0 :: b1 :: rest) uninit).2.1 = swap16 (host_u16 b0 b1) ∧
    (load (b0 :: b1 :: rest) uninit).2.2
      = min (65536 - swap16 (host_u16 b0 b1)) (rest.length / 2) ∧
    (∀ j : Nat, swap16 (host_u16 b0 b1) ≤ j →
      j < swap16 (host_u16 b0 b1)
            + min (65536 - swap16 (host_u16 b0 b1)) (rest.length / 2) →
      (load (b0 :: b1 :: rest) uninit).1 j =
        swap16 (host_u16 (rest.getD (2 * (j - swap16 (host_u16 b0 b1))) 0)
          (rest.getD (2 * (j - swap16 (host_u16 b0 b1)) + 1) 0))) := by
  obtain ⟨ho, hc, hm⟩ := load_into_cons_cons memory b0 b1 rest uninit
  refine ⟨ho, hc, ?_⟩
  intro j h1 h2
  show (load_into memory (b0 :: b1 :: rest) uninit).1 j = _
  rw [hm j, if_pos ⟨h1, h2⟩]

/-- A file too short to hold an origin yields no word, whatever the variable
`origin` holds. -/
theorem load_short (mem0 : Nat → Nat) (bytes : List Nat) (uninit : Nat)
    (h : bytes.length < 2) :
    (load_into mem0 bytes uninit).2.2 = 0 := by
  match bytes, h with
  | [], _ => simp [load_into, fread_u16_count]
  | [b], _ => simp [load_into, fread_u16_count]

theorem join_snoc (l : List String) (s : String) :
    String.join (l ++ [s]) = String.join l ++ s := by
  apply String.ext
  rw [String.data_append, String.join_eq, String.join_eq]
  simp

/-- The loop of `disassemble_program` appends one text per index. -/
theorem foldl_append_join (f : Nat → String) (n : Nat) (init : String) :
    (List.range n).foldl (fun out i => out ++ f i) init
      = init ++ String.join ((List.range n).map f) := by
  induction n with
  | zero => simp [String.join]
  | succ k ih =>
    rw [List.range_succ, List.foldl_append, List.foldl_cons, List.foldl_nil, ih,
      List.map_append, List.map_cons, List.map_nil, join_snoc, String.append_assoc]

/-- The output of `disassemble_program` when the addresses do not wrap. -/
theorem disassemble_program_eq (mem : Nat → Nat) (o n : Nat) (h : o + n ≤ 65536) :
    disassemble_program mem o n
      = "Disassembly Output:\n\n"
          ++ String.join ((List.range n).map
              (fun i => disassemble_instruction (o + i) (mem (o + i)))) := by
  have hf : (List.range n).map
        (fun i => disassemble_instruction ((o + i) % 65536) (mem ((o + i) % 65536)))
      = (List.range n).map (fun i => disassemble_instruction (o + i) (mem (o + i))) := by
    apply List.map_congr_left
    intro i hi
    have : i < n := List.mem_range.mp hi
    rw [Nat.mod_eq_of_lt (by omega)]
  rw [← hf]
  exact foldl_append_join
    (fun i => disassemble_instruction ((o + i) % 65536) (mem ((o + i) % 65536))) n _

theorem getD_lt_256 (l : List Nat) (h : ∀ b ∈ l, b < 256) (k : Nat) : l.getD k 0 < 256 := by
  by_cases hk : k < l.length
  · rw [List.getD_eq_getElem l 0 hk]
    exact h _ (List.getElem_mem hk)
  · rw [List.getD_eq_default l 0 (by omega)]
    omega

/-- C14: for every byte stream that holds an origin, the loader takes the
origin as `256*b0 + b1` and stores at address `origin + i`, for every word
`i` it loads, the value `256*b(2i+2) + b(2i+3)`: one big-endian conversion
for the origin and for the words.  The bytes `0x30 0x00` load as origin
`0x3000`, the host value `0x0030` with its two bytes exchanged. -/
theorem C14_big_endian_words (bytes : List Nat) (uninit : Nat)
    (hlen : 2 ≤ bytes.length) (hb : ∀ b ∈ bytes, b < 256) :
    (load bytes uninit).2.1 = 256 * bytes.getD 0 0 + bytes.getD 1 0 ∧
    (∀ i : Nat, i < (load bytes uninit).2.2 →
      (load bytes uninit).1 ((load bytes uninit).2.1 + i)
        = 256 * bytes.getD (2 * i + 2) 0 + bytes.getD (2 * i + 3) 0) ∧
    (load [0x30, 0x00] uninit).2.1 = 0x3000 ∧
    host_u16 0x30 0x00 = 0x0030 ∧ swap16 0x0030 = 0x3000 := by
  match bytes, hlen, hb with
  | b0 :: b1 :: rest, _, hb =>
    obtain ⟨ho, hc, hm⟩ := load_cons_cons b0 b1 rest uninit
    have h0 : b0 < 256 := hb b0 (by simp)
    have h1 : b1 < 256 := hb b1 (by simp)
    have hr : ∀ b ∈ rest, b < 256 := fun b hbm => hb b (by simp [hbm])
    have hs := swap16_host_u16 b0 b1 h0 h1
    refine ⟨?_, ?_, ?_, by decide, by decide⟩
    · rw [ho, hs]; simp
    · intro i hi
      rw [hc] at hi
      rw [ho, hm _ (by omega) (by omega)]
      have e : swap16 (host_u16 b0 b1) + i - swap16 (host_u16 b0 b1) = i := by omega
      rw [e, swap16_host_u16 _ _ (getD_lt_256 rest hr _) (getD_lt_256 rest hr _)]
      simp [List.getD_cons_succ]
    · rw [(load_cons_cons 0x30 0x00 [] uninit).1]; decide

/-- Witness for C14 on the six bytes of the object with origin `0x3000` and
the words `0x1066`, `0xF025`. -/
theorem C14_big_endian_words_witness :
    2 ≤ [0x30, 0x00, 0x10, 0x66, 0xF0, 0x25].length ∧
    (∀ b ∈ [0x30, 0x00, 0x10, 0x66, 0xF0, 0x25], b < 256) ∧
    ((load [0x30, 0x00, 0x10, 0x66, 0xF0, 0x25] 0).2.1
      = 256 * [0x30, 0x00, 0x10, 0x66, 0xF0, 0x25].getD 0 0
          + [0x30, 0x00, 0x10, 0x66, 0xF0, 0x25].getD 1 0 ∧
    (∀ i : Nat, i < (load [0x30, 0x00, 0x10, 0x66, 0xF0, 0x25] 0).2.2 →
      (load [0x30, 0x00, 0x10, 0x66, 0xF0, 0x25] 0).1
          ((load [0x30, 0x00, 0x10, 0x66, 0xF0, 0x25] 0).2.1 + i)
        = 256 * [0x30, 0x00, 0x10, 0x66, 0xF0, 0x25].getD (2 * i + 2) 0
            + [0x30, 0x00, 0x10, 0x66, 0xF0, 0x25].getD (2 * i + 3) 0) ∧
    (load [0x30, 0x00] 0).2.1 = 0x3000 ∧
    host_u16 0x30 0x00 = 0x0030 ∧ swap16 0x0030 = 0x3000) ∧
    (load [0x30, 0x00, 0x10, 0x66, 0xF0, 0x25] 0).2 = (0x3000, 2) ∧
    (load [0x30, 0x00, 0x10, 0x66, 0xF0, 0x25] 0).1 0x3000 = 0x1066 ∧
    (load [0x30, 0x00, 0x10, 0x66, 0xF0, 0x25] 0).1 0x3001 = 0xF025 :=
  ⟨by decide, by decide,
    C14_big_endian_words [0x30, 0x00, 0x10, 0x66, 0xF0, 0x25] 0 (by decide) (by decide),
    by decide, by decide, by decide⟩

/-- C15: for every input that holds an origin `o` and `k` complete words
after it, and whatever the array `memory` holds before, the loader reads
`min k (65536 - o)` words, so `o + count` does not exceed 65536; the words
stand at `o`, `o + 1`, ...; no cell from 65536 on is written, nor any cell
below `o` or above `o + count`; the cell `o + count` changes only when a
trailing odd byte is read into its low byte, which needs
`o + count < 65536`; the count is the number of instructions `main` hands
to `disassemble_program`.  An object with origin `0xFFFF` and two words
loads one word. -/
theorem C15_load_stays_in_memory (mem0 : Nat → Nat) (bytes : List Nat) (uninit : Nat)
    (hlen : 2 ≤ bytes.length) :
    (load_into mem0 bytes uninit).2.2
      = min ((bytes.length - 2) / 2) (65536 - (load_into mem0 bytes uninit).2.1) ∧
    (load_into mem0 bytes uninit).2.1 + (load_into mem0 bytes uninit).2.2 ≤ 65536 ∧
    (∀ i : Nat, i < (load_into mem0 bytes uninit).2.2 →
      (load_into mem0 bytes uninit).1 ((load_into mem0 bytes uninit).2.1 + i)
        = swap16 (host_u16 (bytes.getD (2 * i + 2) 0) (bytes.getD (2 * i + 3) 0))) ∧
    (∀ j : Nat, 65536 ≤ j → (load_into mem0 bytes uninit).1 j = mem0 j) ∧
    (∀ j : Nat,
      j < (load_into mem0 bytes uninit).2.1 ∨
        (load_into mem0 bytes uninit).2.1 + (load_into mem0 bytes uninit).2.2 < j →
      (load_into mem0 bytes uninit).1 j = mem0 j) ∧
    (load_into mem0 bytes uninit).1
        ((load_into mem0 bytes uninit).2.1 + (load_into mem0 bytes uninit).2.2)
      = (if bytes.length % 2 = 1 ∧
            (load_into mem0 bytes uninit).2.1 + (load_into mem0 bytes uninit).2.2 < 65536 then
          host_u16 (bytes.getD (bytes.length - 1) 0)
            (mem0 ((load_into mem0 bytes uninit).2.1 + (load_into mem0 bytes uninit).2.2)
              / 256)
        else
          mem0 ((load_into mem0 bytes uninit).2.1 + (load_into mem0 bytes uninit).2.2)) ∧
    main 2 (some bytes) uninit
      = (0, disassemble_program (load bytes uninit).1 (load bytes uninit).2.1
              (load bytes uninit).2.2) ∧
    (load_into mem0 [0xFF, 0xFF, 0x10, 0x66, 0xF0, 0x25] uninit).2 = (0xFFFF, 1) := by
  match bytes, hlen with
  | b0 :: b1 :: rest, _ =>
    obtain ⟨ho, hc, hm⟩ := load_into_cons_cons mem0 b0 b1 rest uninit
    have hlt := swap16_lt (host_u16 b0 b1)
    rw [ho, hc]
    simp only [List.length_cons]
    refine ⟨?_, ?_, ?_, ?_, ?_, ?_, rfl, ?_⟩
    · omega
    · omega
    · intro i hi
      rw [hm, if_pos ⟨by omega, by omega⟩]
      have e : swap16 (host_u16 b0 b1) + i - swap16 (host_u16 b0 b1) = i := by omega
      rw [e]
      simp [List.getD_cons_succ]
    · intro j hj
      rw [hm, if_neg (by omega), if_neg (by omega)]
    · intro j hj
      rw [hm, if_neg (by omega), if_neg (by omega)]
    · rw [hm, if_neg (by omega)]
      by_cases hp : (rest.length + 1 + 1) % 2 = 1 ∧
          swap16 (host_u16 b0 b1)
            + min (65536 - swap16 (host_u16 b0 b1)) (rest.length / 2) < 65536
      · rw [if_pos hp, if_pos ⟨rfl, by omega, by omega⟩]
        have e : rest.length + 1 + 1 - 1
            = 2 * min (65536 - swap16 (host_u16 b0 b1)) (rest.length / 2) + 1 + 1 := by
          omega
        rw [e]
        simp [List.getD_cons_succ]
      · rw [if_neg hp, if_neg (by omega)]
    · obtain ⟨ho2, hc2, _⟩ :=
        load_into_cons_cons mem0 0xFF 0xFF [0x10, 0x66, 0xF0, 0x25] uninit
      rw [Prod.ext_iff]
      refine ⟨?_, ?_⟩
      · show (load_into mem0 [0xFF, 0xFF, 0x10, 0x66, 0xF0, 0x25] uninit).2.1 = 0xFFFF
        rw [ho2]; decide
      · show (load_into mem0 [0xFF, 0xFF, 0x10, 0x66, 0xF0, 0x25] uninit).2.2 = 1
        rw [hc2]; decide

/-- Witness for C15 on an object with origin `0x3000`, one word and a
trailing odd byte, loaded over a memory that holds `0x1234` everywhere; the
cells beside the loaded word are shown, and the same for origin `0xFFFF`,
where the cell after the loaded word would lie past the end. -/
theorem C15_load_stays_in_memory_witness :
    2 ≤ [0x30, 0x00, 0x10, 0x66, 0xAB].length ∧
    ((load_into (fun _ => 0x1234) [0x30, 0x00, 0x10, 0x66, 0xAB] 0).2.2
      = min (([0x30, 0x00, 0x10, 0x66, 0xAB].length - 2) / 2)
          (65536 - (load_into (fun _ => 0x1234) [0x30, 0x00, 0x10, 0x66, 0xAB] 0).2.1) ∧
    (load_into (fun _ => 0x1234) [0x30, 0x00, 0x10, 0x66, 0xAB] 0).2.1
      + (load_into (fun _ => 0x1234) [0x30, 0x00, 0x10, 0x66, 0xAB] 0).2.2 ≤ 65536 ∧
    (∀ i : Nat, i < (load_into (fun _ => 0x1234) [0x30, 0x00, 0x10, 0x66, 0xAB] 0).2.2 →
      (load_into (fun _ => 0x1234) [0x30, 0x00, 0x10, 0x66, 0xAB] 0).1
          ((load_into (fun _ => 0x1234) [0x30, 0x00, 0x10, 0x66, 0xAB] 0).2.1 + i)
        = swap16 (host_u16 ([0x30, 0x00, 0x10, 0x66, 0xAB].getD (2 * i + 2) 0)
            ([0x30, 0x00, 0x10, 0x66, 0xAB].getD (2 * i + 3) 0))) ∧
    (∀ j : Nat, 65536 ≤ j →
      (load_into (fun _ => 0x1234) [0x30, 0x00, 0x10, 0x66, 0xAB] 0).1 j = (fun _ => 0x1234) j) ∧
    (∀ j : Nat,
      j < (load_into (fun _ => 0x1234) [0x30, 0x00, 0x10, 0x66, 0xAB] 0).2.1 ∨
        (load_into (fun _ => 0x1234) [0x30, 0x00, 0x10, 0x66, 0xAB] 0).2.1
          + (load_into (fun _ => 0x1234) [0x30, 0x00, 0x10, 0x66, 0xAB] 0).2.2 < j →
      (load_into (fun _ => 0x1234) [0x30, 0x00, 0x10, 0x66, 0xAB] 0).1 j = (fun _ => 0x1234) j) ∧
    (load_into (fun _ => 0x1234) [0x30, 0x00, 0x10, 0x66, 0xAB] 0).1
        ((load_into (fun _ => 0x1234) [0x30, 0x00, 0x10, 0x66, 0xAB] 0).2.1
          + (load_into (fun _ => 0x1234) [0x30, 0x00, 0x10, 0x66, 0xAB] 0).2.2)
      = (if [0x30, 0x00, 0x10, 0x66, 0xAB].length % 2 = 1 ∧
            (load_into (fun _ => 0x1234) [0x30, 0x00, 0x10, 0x66, 0xAB] 0).2.1
              + (load_into (fun _ => 0x1234) [0x30, 0x00, 0x10, 0x66, 0xAB] 0).2.2 < 65536 then
          host_u16
            ([0x30, 0x00, 0x10, 0x66, 0xAB].getD ([0x30, 0x00, 0x10, 0x66, 0xAB].length - 1) 0)
            ((fun _ => 0x1234)
              ((load_into (fun _ => 0x1234) [0x30, 0x00, 0x10, 0x66, 0xAB] 0).2.1
                + (load_into (fun _ => 0x1234) [0x30, 0x00, 0x10, 0x66, 0xAB] 0).2.2)
              / 256)
        else
          (fun _ => 0x1234)
            ((load_into (fun _ => 0x1234) [0x30, 0x00, 0x10, 0x66, 0xAB] 0).2.1
              + (load_into (fun _ => 0x1234) [0x30, 0x00, 0x10, 0x66, 0xAB] 0).2.2)) ∧
    main 2 (some [0x30, 0x00, 0x10, 0x66, 0xAB]) 0
      = (0, disassemble_program (load [0x30, 0x00, 0x10, 0x66, 0xAB] 0).1
              (load [0x30, 0x00, 0x10, 0x66, 0xAB] 0).2.1
              (load [0x30, 0x00, 0x10, 0x66, 0xAB] 0).2.2) ∧
    (load_into (fun _ => 0x1234) [0xFF, 0xFF, 0x10, 0x66, 0xF0, 0x25] 0).2 = (0xFFFF, 1)) ∧
    (load_into (fun _ => 0x1234) [0x30, 0x00, 0x10, 0x66, 0xAB] 0).2 = (0x3000, 1) ∧
    (load_into (fun _ => 0x1234) [0x30, 0x00, 0x10, 0x66, 0xAB] 0).1 0x2FFF = 0x1234 ∧
    (load_into (fun _ => 0x1234) [0x30, 0x00, 0x10, 0x66, 0xAB] 0).1 0x3000 = 0x1066 ∧
    (load_into (fun _ => 0x1234) [0x30, 0x00, 0x10, 0x66, 0xAB] 0).1 0x3001 = 0x12AB ∧
    (load_into (fun _ => 0x1234) [0x30, 0x00, 0x10, 0x66, 0xAB] 0).1 0x3002 = 0x1234 ∧
    (load [0x30, 0x00, 0x10, 0x66, 0xAB] 0).1 0x3001 = 0xAB ∧
    (load_into (fun _ => 0x1234) [0xFF, 0xFF, 0x10, 0x66, 0xF0, 0x25, 0xAB] 0).2 = (0xFFFF, 1) ∧
    (load_into (fun _ => 0x1234) [0xFF, 0xFF, 0x10, 0x66, 0xF0, 0x25, 0xAB] 0).1 0xFFFF = 0x1066 ∧
    (load_into (fun _ => 0x1234) [0xFF, 0xFF, 0x10, 0x66, 0xF0, 0x25, 0xAB] 0).1 0x10000 = 0x1234 :=
  ⟨by decide,
    C15_load_stays_in_memory (fun _ => 0x1234) [0x30, 0x00, 0x10, 0x66, 0xAB] 0 (by decide),
    by decide, by decide, by decide, by decide, by decide, by decide, by decide, by decide,
    by decide⟩

/-- C16 (counterexample): on the empty file and on a file of one byte `main`
reports no error: it returns 0, no word is loaded, and
`disassemble_program` is run and prints its header.  The failure this
program knows, a file that cannot be opened, returns 1 and prints
nothing. -/
theorem C16_short_input_not_rejected :
    ¬ ((main 2 (some []) 0).1 ≠ 0) ∧
    main 2 (some []) 0 = (0, "Disassembly Output:\n\n") ∧
    main 2 (some [0x30]) 0 = (0, "Disassembly Output:\n\n") ∧
    main 2 (some [0x30]) 0
      = (0, disassemble_program (load [0x30] 0).1 (load [0x30] 0).2.1 (load [0x30] 0).2.2) ∧
    (load [0x30] 0).2.2 = 0 ∧
    main 2 none 0 = (1, "") := by
  decide

/-- C16 (amended): for every input of fewer than two bytes, whatever the
variable `origin` holds, the loader reads no word and reports no error:
`main` returns 0 and prints the header of `disassemble_program` and no
instruction line. -/
theorem C16_short_input_loads_nothing (bytes : List Nat) (uninit : Nat)
    (h : bytes.length < 2) :
    (load bytes uninit).2.2 = 0 ∧
    main 2 (some bytes) uninit = (0, "Disassembly Output:\n\n") := by
  have hc : (load bytes uninit).2.2 = 0 := load_short memory bytes uninit h
  refine ⟨hc, ?_⟩
  simp only [main, hc, disassemble_program]
  simp

/-- Witness for the amended C16 on a file of the single byte `0x30`. -/
theorem C16_short_input_loads_nothing_witness :
    [0x30].length < 2 ∧
    ((load [0x30] 0xBEEF).2.2 = 0 ∧
    main 2 (some [0x30]) 0xBEEF = (0, "Disassembly Output:\n\n")) :=
  ⟨by decide, C16_short_input_loads_nothing [0x30] 0xBEEF (by decide)⟩

/-- C17 (counterexample): for the object `[0x3000, 0x1066, 0xF025]` the
output of `disassemble_program` is four lines, the header and an empty line
before the two instruction lines, and its first line is the header; with no
word loaded the output is not empty. -/
theorem C17_output_begins_with_header :
    disassemble_program (load [0x30, 0x00, 0x10, 0x66, 0xF0, 0x25] 0).1 0x3000 2
      = "Disassembly Output:\n\n0x3000: ADD R0, R1, #6\n0x3001: TRAP 0x0F\n" ∧
    disassemble_program (load [0x30, 0x00, 0x10, 0x66, 0xF0, 0x25] 0).1 0x3000 2
      ≠ disassemble_instruction 0x3000 0x1066 ++ disassemble_instruction 0x3001 0xF025 ∧
    (disassemble_program (load [0x30, 0x00, 0x10, 0x66, 0xF0, 0x25] 0).1 0x3000 2).data.count
      '\n' = 4 ∧
    disassemble_program memory 0x3000 0 = "Disassembly Output:\n\n" := by
  decide

/-- C17 (amended): for every origin `o` and number `n` of words with
`o + n ≤ 65536`, the output of `disassemble_program` is the header
`Disassembly Output:` and an empty line, followed by the `n` lines of
`disassemble_instruction (o + i) (memory (o + i))` for `i = 0, ..., n - 1` in
this order.  For the object `[0x3000, 0x1066, 0xF025]` these are the lines
for `0x3000` and `0x3001`, the first being `0x3000: ADD R0, R1, #6`. -/
theorem C17_header_then_lines_in_order (mem : Nat → Nat) (o n : Nat)
    (h : o + n ≤ 65536) :
    disassemble_program mem o n
      = "Disassembly Output:\n\n"
          ++ String.join ((List.range n).map
              (fun i => disassemble_instruction (o + i) (mem (o + i)))) ∧
    ((List.range n).map (fun i => disassemble_instruction (o + i) (mem (o + i)))).length = n ∧
    main 2 (some [0x30, 0x00, 0x10, 0x66, 0xF0, 0x25]) 0
      = (0, "Disassembly Output:\n\n" ++ "0x3000: ADD R0, R1, #6\n"
              ++ disassemble_instruction 0x3001 0xF025) := by
  refine ⟨disassemble_program_eq mem o n h, ?_, by decide⟩
  rw [List.length_map, List.length_range]

/-- Witness for the amended C17 on the memory loaded from the object
`[0x3000, 0x1066, 0xF025]`. -/
theorem C17_header_then_lines_in_order_witness :
    0x3000 + 2 ≤ 65536 ∧
    (disassemble_program (load [0x30, 0x00, 0x10, 0x66, 0xF0, 0x25] 0).1 0x3000 2
      = "Disassembly Output:\n\n"
          ++ String.join ((List.range 2).map
              (fun i => disassemble_instruction (0x3000 + i)
                ((load [0x30, 0x00, 0x10, 0x66, 0xF0, 0x25] 0).1 (0x3000 + i)))) ∧
    ((List.range 2).map
        (fun i => disassemble_instruction (0x3000 + i)
          ((load [0x30, 0x00, 0x10, 0x66, 0xF0, 0x25] 0).1 (0x3000 + i)))).length = 2 ∧
    main 2 (some [0x30, 0x00, 0x10, 0x66, 0xF0, 0x25]) 0
      = (0, "Disassembly Output:\n\n" ++ "0x3000: ADD R0, R1, #6\n"
              ++ disassemble_instruction 0x3001 0xF025)) ∧
    (List.range 2).map
        (fun i => disassemble_instruction (0x3000 + i)
          ((load [0x30, 0x00, 0x10, 0x66, 0xF0, 0x25] 0).1 (0x3000 + i)))
      = ["0x3000: ADD R0, R1, #6\n", disassemble_instruction 0x3001 0xF025] :=
  ⟨by decide,
    C17_header_then_lines_in_order (load [0x30, 0x00, 0x10, 0x66, 0xF0, 0x25] 0).1 0x3000 2
      (by decide),
    by decide⟩

/-- C18: for every 16-bit word `w` the opcode `w >> 12` is below 16, equals
exactly one of the sixteen base opcodes and none of `OP_NOP`, `OP_CLR`,
`OP_INC`, `OP_DEC`; at no address does the text after the address prefix
start with `NOP`, `CLR`, `INC` or `DEC`. -/
theorem C18_extension_cases_unreachable (a w : Nat) (ha : a < 65536) (hw : w < 65536) :
    w >>> 12 < 16 ∧
    List.count (w >>> 12)
      [OP_BR, OP_ADD, OP_LD, OP_ST, OP_JSR, OP_AND, OP_LDR, OP_STR, OP_RTI, OP_NOT,
        OP_LDI, OP_STI, OP_JMP, OP_RES, OP_LEA, OP_TRAP] = 1 ∧
    w >>> 12 ∉ [OP_NOP, OP_CLR, OP_INC, OP_DEC] ∧
    (∀ m rest : String, m ∈ ["NOP", "CLR", "INC", "DEC"] →
      disassemble_instruction a w ≠ "0x" ++ printf_04X a ++ ": " ++ m ++ rest) := by
  have hlt := op_lt_16 w hw
  refine ⟨hlt, ?_, ?_, ?_⟩
  · obtain ⟨op, hop⟩ : ∃ op, w >>> 12 = op := ⟨_, rfl⟩
    rw [hop] at hlt ⊢
    interval_cases op <;> decide
  · obtain ⟨op, hop⟩ : ∃ op, w >>> 12 = op := ⟨_, rfl⟩
    rw [hop] at hlt ⊢
    interval_cases op <;> decide
  · intro m rest hm h
    have hc := classOfLine_disassemble a w ha hw
    obtain ⟨c1, c2, c3, c4, hx⟩ := printf_04X_chars a ha
    rw [h, hx] at hc
    have h16 : classOfLine ("0x" ++ String.mk [c1, c2, c3, c4] ++ ": " ++ m ++ rest) = 16 := by
      simp only [List.mem_cons, List.mem_singleton, List.not_mem_nil, or_false] at hm
      rcases hm with rfl | rfl | rfl | rfl <;> simp [classOfLine]
    omega

/-- Witness for C18 at address `0x3000` and the word `0xE8FF`, whose top byte
is the value of `OP_NOP`. -/
theorem C18_extension_cases_unreachable_witness :
    0x3000 < 65536 ∧ 0xE8FF < 65536 ∧
    (0xE8FF >>> 12 < 16 ∧
    List.count (0xE8FF >>> 12)
      [OP_BR, OP_ADD, OP_LD, OP_ST, OP_JSR, OP_AND, OP_LDR, OP_STR, OP_RTI, OP_NOT,
        OP_LDI, OP_STI, OP_JMP, OP_RES, OP_LEA, OP_TRAP] = 1 ∧
    0xE8FF >>> 12 ∉ [OP_NOP, OP_CLR, OP_INC, OP_DEC] ∧
    (∀ m rest : String, m ∈ ["NOP", "CLR", "INC", "DEC"] →
      disassemble_instruction 0x3000 0xE8FF ≠ "0x" ++ printf_04X 0x3000 ++ ": " ++ m ++ rest)) ∧
    disassemble_instruction 0x3000 0xE8FF = "0x3000: LEA R4, 0x3100\n" :=
  ⟨by decide, by decide,
    C18_extension_cases_unreachable 0x3000 0xE8FF (by decide) (by decide), by decide⟩

/-- C19: for every address `a` and every NOT word `w` the line is the
address prefix and `NOT R<bits 11-9>, R<bits 8-6>`; a NOT word with the same
bits 11-6 gives the same line at the same address, whatever its bits
5-0. -/
theorem C19_not_form (a w : Nat) (ha : a < 65536) (hw : w < 65536)
    (hop : w >>> 12 = OP_NOT) :
    disassemble_instruction a w
      = "0x" ++ printf_04X a ++ ": " ++ "NOT R"
          ++ String.mk [Char.ofNat (48 + w / 512 % 8)] ++ ", R"
          ++ String.mk [Char.ofNat (48 + w / 64 % 8)] ++ "\n" ∧
    (∀ w2 : Nat, w2 < 65536 → w2 >>> 12 = OP_NOT → w2 / 64 = w / 64 →
      disassemble_instruction a w2 = disassemble_instruction a w) := by
  have key : ∀ v : Nat, v >>> 12 = OP_NOT →
      disassemble_instruction a v
        = "0x" ++ printf_04X a ++ ": " ++ "NOT R"
            ++ String.mk [Char.ofNat (48 + v / 512 % 8)] ++ ", R"
            ++ String.mk [Char.ofNat (48 + v / 64 % 8)] ++ "\n" := by
    intro v hv
    rw [dis_NOT a v hv, reg_11_9, reg_8_6, printf_d_reg (v / 512 % 8) (by omega),
      printf_d_reg (v / 64 % 8) (by omega)]
  refine ⟨key w hop, ?_⟩
  intro w2 _ hop2 he
  have e1 : w2 / 512 % 8 = w / 512 % 8 := by omega
  have e2 : w2 / 64 % 8 = w / 64 % 8 := by omega
  rw [key w hop, key w2 hop2, e1, e2]

/-- Witness for C19 at address `0x3000` and the NOT word `0x927F`. -/
theorem C19_not_form_witness :
    0x3000 < 65536 ∧ 0x927F < 65536 ∧ 0x927F >>> 12 = OP_NOT ∧
    (disassemble_instruction 0x3000 0x927F
      = "0x" ++ printf_04X 0x3000 ++ ": " ++ "NOT R"
          ++ String.mk [Char.ofNat (48 + 0x927F / 512 % 8)] ++ ", R"
          ++ String.mk [Char.ofNat (48 + 0x927F / 64 % 8)] ++ "\n" ∧
    (∀ w2 : Nat, w2 < 65536 → w2 >>> 12 = OP_NOT → w2 / 64 = 0x927F / 64 →
      disassemble_instruction 0x3000 w2 = disassemble_instruction 0x3000 0x927F)) ∧
    disassemble_instruction 0x3000 0x927F = "0x3000: NOT R1, R1\n" ∧
    disassemble_instruction 0x3000 0x9240 = "0x3000: NOT R1, R1\n" :=
  ⟨by decide, by decide, by decide,
    C19_not_form 0x3000 0x927F (by decide) (by decide) (by decide),
    by decide, by decide⟩

/-- C20: for every address `a` and every LD word `w` the line is the address
prefix and `LD R<bits 11-9>`, with no target address; an LD word with the
same bits 11-9 gives the same line at the same address, whatever its offset
bits 8-0. -/
theorem C20_ld_line_has_no_target (a w : Nat) (ha : a < 65536) (hw : w < 65536)
    (hop : w >>> 12 = OP_LD) :
    disassemble_instruction a w
      = "0x" ++ printf_04X a ++ ": " ++ "LD R"
          ++ String.mk [Char.ofNat (48 + w / 512 % 8)] ++ "\n" ∧
    (∀ w2 : Nat, w2 < 65536 → w2 >>> 12 = OP_LD → w2 / 512 % 8 = w / 512 % 8 →
      disassemble_instruction a w2 = disassemble_instruction a w) := by
  have key : ∀ v : Nat, v >>> 12 = OP_LD →
      disassemble_instruction a v
        = "0x" ++ printf_04X a ++ ": " ++ "LD R"
            ++ String.mk [Char.ofNat (48 + v / 512 % 8)] ++ "\n" := by
    intro v hv
    rw [dis_LD a v hv, reg_11_9, printf_d_reg (v / 512 % 8) (by omega)]
  refine ⟨key w hop, ?_⟩
  intro w2 _ hop2 he
  rw [key w hop, key w2 hop2, he]

/-- Witness for C20 at address `0x3000` and the LD word `0x2201`, compared
with the LD word `0x23FF` of the same register. -/
theorem C20_ld_line_has_no_target_witness :
    0x3000 < 65536 ∧ 0x2201 < 65536 ∧ 0x2201 >>> 12 = OP_LD ∧
    (disassemble_instruction 0x3000 0x2201
      = "0x" ++ printf_04X 0x3000 ++ ": " ++ "LD R"
          ++ String.mk [Char.ofNat (48 + 0x2201 / 512 % 8)] ++ "\n" ∧
    (∀ w2 : Nat, w2 < 65536 → w2 >>> 12 = OP_LD → w2 / 512 % 8 = 0x2201 / 512 % 8 →
      disassemble_instruction 0x3000 w2 = disassemble_instruction 0x3000 0x2201)) ∧
    disassemble_instruction 0x3000 0x2201 = "0x3000: LD R1\n" ∧
    disassemble_instruction 0x3000 0x23FF = "0x3000: LD R1\n" :=
  ⟨by decide, by decide, by decide,
    C20_ld_line_has_no_target 0x3000 0x2201 (by decide) (by decide) (by decide),
    by decide, by decide⟩

end LC3
